import Mathlib

/-!
Formal model of the platform-identification and register-access engine in
`chipsec/chipset.py`: the configuration store and its XML-loading/override
semantics, the bus resolver, the register-access dispatcher with its bit-field
math, and the platform identifier.  Python dictionaries are modelled as
association lists over `String` keys; Python's unbounded nonnegative integers
are modelled as `Nat`; hexadecimal string attributes (`int(s, 16)` round-trips)
are modelled directly by their numeric values; fallible dictionary accesses and
raised exceptions are modelled with `Except`.
-/

/-- Errors raised by the engine: Python `KeyError` on a missing dictionary key,
`RegisterTypeNotFoundError`, and `UnknownChipsetError` (from `Chipset.init`). -/
inductive CsErr where
  | keyError (k : String)
  | registerTypeNotFound (t : String)
  | unknownChipset
  deriving DecidableEq, Repr

deriving instance DecidableEq for Except

/-- Reduction of an `Except` bind on a success value. -/
theorem exceptBind_ok {e a b : Type} (x : a) (f : a → Except e b) :
    (Except.ok x >>= f : Except e b) = f x := rfl

/-- Reduction of `pure` to the `Except` success constructor. -/
theorem exceptPure_eq_ok {e a : Type} (x : a) : (pure x : Except e a) = Except.ok x := rfl

/-- Lookup in a Python-dict-like association list (first binding wins; in the
program keys are unique, as `dict` guarantees). -/
def alGet {κ α : Type} [DecidableEq κ] (m : List (κ × α)) (k : κ) : Option α :=
  match m with
  | [] => none
  | (k', v) :: rest => if k' = k then some v else alGet rest k

/-- Assignment `m[k] = v` on a Python-dict-like association list: updates the
existing binding in place, else appends a new binding (insertion order). -/
def alSet {κ α : Type} [DecidableEq κ] (m : List (κ × α)) (k : κ) (v : α) : List (κ × α) :=
  match m with
  | [] => [(k, v)]
  | (k', v') :: rest => if k' = k then (k, v) :: rest else (k', v') :: alSet rest k v

/-- Deletion `m.pop(k, None)` on a Python-dict-like association list. -/
def alErase {κ α : Type} [DecidableEq κ] (m : List (κ × α)) (k : κ) : List (κ × α) :=
  match m with
  | [] => []
  | (k', v') :: rest => if k' = k then rest else (k', v') :: alErase rest k

theorem alGet_alSet_self {α : Type} (m : List (String × α)) (k : String) (v : α) :
    alGet (alSet m k v) k = some v := by
  induction m with
  | nil => simp [alGet, alSet]
  | cons hd tl ih =>
    obtain ⟨k', v'⟩ := hd
    by_cases h : k' = k <;> simp [alGet, alSet, h, ih]

theorem alGet_alSet_ne {α : Type} (m : List (String × α)) (k k' : String) (v : α)
    (h : k' ≠ k) : alGet (alSet m k v) k' = alGet m k' := by
  have hk : k ≠ k' := fun hh => h (Eq.symm hh)
  induction m with
  | nil => simp [alGet, alSet, hk]
  | cons hd tl ih =>
    obtain ⟨k₀, v₀⟩ := hd
    by_cases h0 : k₀ = k
    · subst h0
      simp [alGet, alSet, hk]
    · simp only [alSet, if_neg h0, alGet]
      by_cases h1 : k₀ = k' <;> simp [h1, ih]

theorem alGet_alErase_self {α : Type} (m : List (String × α)) (k : String)
    (hnd : (m.map Prod.fst).Nodup) : alGet (alErase m k) k = none := by
  induction m with
  | nil => simp [alGet, alErase]
  | cons hd tl ih =>
    obtain ⟨k₀, v₀⟩ := hd
    simp only [List.map_cons, List.nodup_cons] at hnd
    by_cases h0 : k₀ = k
    · subst h0
      simp only [alErase, if_pos rfl]
      clear ih
      induction tl with
      | nil => simp [alGet]
      | cons hd' tl' ih' =>
        obtain ⟨k₁, v₁⟩ := hd'
        simp only [List.map_cons, List.mem_cons, List.nodup_cons] at hnd
        have hk1 : k₁ ≠ k₀ := fun hh => hnd.1 (Or.inl hh.symm)
        simp only [alGet, if_neg hk1]
        exact ih' ⟨fun hh => hnd.1 (Or.inr hh), hnd.2.2⟩
    · simp only [alErase, if_neg h0, alGet, if_neg h0]
      exact ih hnd.2

theorem alGet_alErase_ne {α : Type} (m : List (String × α)) (k k' : String)
    (h : k' ≠ k) : alGet (alErase m k) k' = alGet m k' := by
  have hk : k ≠ k' := fun hh => h (Eq.symm hh)
  induction m with
  | nil => simp [alGet, alErase]
  | cons hd tl ih =>
    obtain ⟨k₀, v₀⟩ := hd
    by_cases h0 : k₀ = k
    · subst h0
      simp [alErase, alGet, hk]
    · simp only [alErase, if_neg h0, alGet]
      by_cases h1 : k₀ = k' <;> simp [h1, ih]

theorem alSet_keys_of_mem {α : Type} (m : List (String × α)) (k : String) (v v₀ : α)
    (h : alGet m k = some v₀) : (alSet m k v).map Prod.fst = m.map Prod.fst := by
  induction m with
  | nil => simp [alGet] at h
  | cons hd tl ih =>
    obtain ⟨k₀, v'⟩ := hd
    by_cases h0 : k₀ = k
    · subst h0; simp [alSet]
    · simp only [alGet, if_neg h0] at h
      simp [alSet, if_neg h0, ih h]

/-!
Bit-field extraction and insertion (`Chipset.get_register_field` /
`Chipset.set_register_field`).  Python's `reg_value &= ~(field_mask << field_bit)`
on unbounded nonnegative integers clears exactly the mask bits, which on `Nat`
is `Nat.ldiff reg_value (field_mask <<< field_bit)`.
-/

/-- Pure core of `Chipset.get_register_field`:
`field_mask = (1 << size) - 1`; with `preserve_field_position` the result is
`reg_value & (field_mask << field_bit)`, else `(reg_value >> field_bit) & field_mask`. -/
def get_field_val (reg_value bit size : Nat) (preserve_field_position : Bool) : Nat :=
  let field_mask := (1 <<< size) - 1
  if preserve_field_position then reg_value &&& (field_mask <<< bit)
  else (reg_value >>> bit) &&& field_mask

/-- Pure core of `Chipset.set_register_field`: clear the field bits
(`reg_value &= ~(field_mask << field_bit)`), then OR in the new value, either
pre-positioned (`field_value & (field_mask << field_bit)`) or shifted into
position (`(field_value & field_mask) << field_bit`). -/
def set_field_val (reg_value bit size field_value : Nat)
    (preserve_field_position : Bool) : Nat :=
  let field_mask := (1 <<< size) - 1
  let cleared := Nat.ldiff reg_value (field_mask <<< bit)
  if preserve_field_position then cleared ||| (field_value &&& (field_mask <<< bit))
  else cleared ||| ((field_value &&& field_mask) <<< bit)

theorem testBit_mask (size i : Nat) : ((1 <<< size) - 1).testBit i = decide (i < size) := by
  rw [Nat.one_shiftLeft]
  exact Nat.testBit_two_pow_sub_one ..

theorem testBit_mask_shift (size bit i : Nat) :
    (((1 <<< size) - 1) <<< bit).testBit i =
      (decide (bit ≤ i) && decide (i - bit < size)) := by
  rw [Nat.testBit_shiftLeft, testBit_mask]

theorem get_set_field_val_false (reg bit size v : Nat) :
    get_field_val (set_field_val reg bit size v false) bit size false =
      v &&& ((1 <<< size) - 1) := by
  apply Nat.eq_of_testBit_eq
  intro i
  simp only [get_field_val, set_field_val, Bool.if_false_left, Bool.if_false_right,
    if_neg (Bool.false_ne_true), Nat.testBit_land, Nat.testBit_lor, Nat.testBit_ldiff,
    Nat.testBit_shiftLeft, Nat.testBit_shiftRight, testBit_mask_shift, testBit_mask]
  have h1 : bit + i - bit = i := by omega
  have h2 : decide (bit ≤ bit + i) = true := by simp
  simp only [ge_iff_le, h1, h2, Bool.true_and]
  by_cases h : i < size
  · simp [h]
  · simp [h]

theorem get_set_field_val_true (reg bit size v : Nat) :
    get_field_val (set_field_val reg bit size v true) bit size true =
      v &&& (((1 <<< size) - 1) <<< bit) := by
  apply Nat.eq_of_testBit_eq
  intro i
  simp only [get_field_val, set_field_val, if_pos rfl, Nat.testBit_land, Nat.testBit_lor,
    Nat.testBit_ldiff, testBit_mask_shift]
  by_cases h : bit ≤ i
  · by_cases h2 : i - bit < size
    · simp [h, h2, testBit_mask]
    · simp [h, h2, testBit_mask]
  · simp [h]

/-!
Data model: descriptors held by the configuration store (`Cfg` in
`chipsec/cfg/common.py`, populated by `Chipset.init_cfg_xml`).  Attribute
dictionaries are modelled as structures over the keys the engine reads;
numeric attributes (stored as hex strings in the XML, parsed back with
`int(_, 16)`) are carried as their numeric values.
-/

/-- Field entry of a register definition (`FIELDS` sub-dictionary): bit offset
(`bit`), bit width (`size`), description (`desc`, defaulted to `""`). -/
structure FieldDef where
  bit : Nat
  size : Nat
  desc : String := ""
  deriving DecidableEq, Repr

/-- Register definition dictionary (one entry of `Cfg.REGISTERS`).  `rtype` is
the `type` attribute; `fnn` is the `fun` attribute; optional attributes model
keys that may be absent from the dictionary. -/
structure RegDef where
  rtype : String
  bus : Option Nat := none
  dev : Option Nat := none
  fnn : Option Nat := none
  offset : Option Nat := none
  size : Nat := 4
  msr : Option Nat := none
  port : Option Nat := none
  bar : Option String := none
  device : Option String := none
  fields : Option (List (String × FieldDef)) := none
  desc : String := ""
  deriving DecidableEq, Repr

/-- Device entry of `Cfg.CONFIG_PCI`: declared bus/device/function plus
optional vendor id and candidate device-id list (`did` is a comma-separated
hex list in the XML; `none` models an absent or empty attribute, which is
falsy in the Python `if (xml_vid and xml_did)` test). -/
structure PciDevice where
  bus : Nat
  dev : Nat
  fnn : Nat
  vid : Option Nat := none
  did : Option (List Nat) := none
  deriving DecidableEq, Repr

/-- Control entry of `Cfg.CONTROLS`: an alias naming a register and a field. -/
structure ControlDef where
  register : String
  field : String
  deriving DecidableEq, Repr

/-- Configuration store (`self.Cfg`): the category maps plus the bus-binding
map `BUS` filled by `init_cfg_bus`.  MMIO/IO bars and memory ranges are plain
attribute dictionaries that the register dispatcher never inspects. -/
structure Cfg where
  CONFIG_PCI : List (String × PciDevice) := []
  MMIO_BARS : List (String × List (String × String)) := []
  IO_BARS : List (String × List (String × String)) := []
  MEMORY_RANGES : List (String × List (String × String)) := []
  REGISTERS : List (String × RegDef) := []
  CONTROLS : List (String × ControlDef) := []
  BUS : List (String × List Nat) := []
  deriving DecidableEq, Repr

/-- One transaction issued to the external platform access layer (the HAL
components `pci`, `mmio`, `msr`, `io`, `iobar`, `msgbus`). -/
inductive Access where
  | pciRd (sz b d f o : Nat)
  | pciWr (sz b d f o v : Nat)
  | mmcfgRd (b d f o sz : Nat)
  | mmcfgWr (b d f o sz v : Nat)
  | mmioRd (bar : String) (o sz : Nat)
  | mmioWr (bar : String) (o sz v : Nat)
  | msrRd (t a : Nat)
  | msrWr (t a eax edx : Nat)
  | portRd (p sz : Nat)
  | portWr (p sz v : Nat)
  | iobarRd (bar : String) (o sz : Nat)
  | iobarWr (bar : String) (o sz v : Nat)
  | msgbusRd (p o : Nat)
  | msgbusWr (p o v : Nat)
  | mmMsgbusRd (p o : Nat)
  | mmMsgbusWr (p o v : Nat)
  deriving DecidableEq, Repr

/-- State of the external platform access layer: one value map per address
space (the raw transports are out of scope of the engine; reads return the
mapped value, writes update it pointwise). -/
structure HW where
  pciByte : Nat × Nat × Nat × Nat → Nat
  pciWord : Nat × Nat × Nat × Nat → Nat
  pciDword : Nat × Nat × Nat × Nat → Nat
  mmcfgReg : Nat × Nat × Nat × Nat × Nat → Nat
  mmioReg : String × Nat × Nat → Nat
  msrReg : Nat × Nat → Nat × Nat
  portReg : Nat × Nat → Nat
  iobarReg : String × Nat × Nat → Nat
  msgbusReg : Nat × Nat → Nat
  mmMsgbusReg : Nat × Nat → Nat

/-- Hardware plus the ordered trace of transactions issued so far. -/
structure Machine where
  hw : HW
  trace : List Access

/-- Transport `pci.read_byte`. -/
def pci_read_byte (m : Machine) (b d f o : Nat) : Nat × Machine :=
  (m.hw.pciByte (b, d, f, o), { m with trace := m.trace ++ [.pciRd 1 b d f o] })

/-- Transport `pci.read_word`. -/
def pci_read_word (m : Machine) (b d f o : Nat) : Nat × Machine :=
  (m.hw.pciWord (b, d, f, o), { m with trace := m.trace ++ [.pciRd 2 b d f o] })

/-- Transport `pci.read_dword`. -/
def pci_read_dword (m : Machine) (b d f o : Nat) : Nat × Machine :=
  (m.hw.pciDword (b, d, f, o), { m with trace := m.trace ++ [.pciRd 4 b d f o] })

/-- Transport `pci.write_byte`. -/
def pci_write_byte (m : Machine) (b d f o v : Nat) : Machine :=
  { hw := { m.hw with pciByte := Function.update m.hw.pciByte (b, d, f, o) v },
    trace := m.trace ++ [.pciWr 1 b d f o v] }

/-- Transport `pci.write_word`. -/
def pci_write_word (m : Machine) (b d f o v : Nat) : Machine :=
  { hw := { m.hw with pciWord := Function.update m.hw.pciWord (b, d, f, o) v },
    trace := m.trace ++ [.pciWr 2 b d f o v] }

/-- Transport `pci.write_dword`. -/
def pci_write_dword (m : Machine) (b d f o v : Nat) : Machine :=
  { hw := { m.hw with pciDword := Function.update m.hw.pciDword (b, d, f, o) v },
    trace := m.trace ++ [.pciWr 4 b d f o v] }

/-- Transport `msr.read_msr`: returns the `(eax, edx)` halves. -/
def msr_read (m : Machine) (t a : Nat) : (Nat × Nat) × Machine :=
  (m.hw.msrReg (t, a), { m with trace := m.trace ++ [.msrRd t a] })

/-- Transport `msr.write_msr`. -/
def msr_write (m : Machine) (t a eax edx : Nat) : Machine :=
  { hw := { m.hw with msrReg := Function.update m.hw.msrReg (t, a) (eax, edx) },
    trace := m.trace ++ [.msrWr t a eax edx] }

/-- Transport `mmio.write_mmcfg_reg`. -/
def mmcfg_write (m : Machine) (b d f o sz v : Nat) : Machine :=
  { hw := { m.hw with mmcfgReg := Function.update m.hw.mmcfgReg (b, d, f, o, sz) v },
    trace := m.trace ++ [.mmcfgWr b d f o sz v] }

/-- Transport `mmio.write_MMIO_BAR_reg`. -/
def mmio_bar_write (m : Machine) (bar : String) (o v sz : Nat) : Machine :=
  { hw := { m.hw with mmioReg := Function.update m.hw.mmioReg (bar, o, sz) v },
    trace := m.trace ++ [.mmioWr bar o sz v] }

/-- Transport `io._write_port`. -/
def port_write (m : Machine) (p v sz : Nat) : Machine :=
  { hw := { m.hw with portReg := Function.update m.hw.portReg (p, sz) v },
    trace := m.trace ++ [.portWr p sz v] }

/-- Transport `iobar.write_IO_BAR_reg`. -/
def iobar_write (m : Machine) (bar : String) (o sz v : Nat) : Machine :=
  { hw := { m.hw with iobarReg := Function.update m.hw.iobarReg (bar, o, sz) v },
    trace := m.trace ++ [.iobarWr bar o sz v] }

/-- Transport `msgbus.msgbus_reg_write`. -/
def msgbus_write (m : Machine) (p o v : Nat) : Machine :=
  { hw := { m.hw with msgbusReg := Function.update m.hw.msgbusReg (p, o) v },
    trace := m.trace ++ [.msgbusWr p o v] }

/-- Transport `msgbus.mm_msgbus_reg_write`. -/
def mm_msgbus_write (m : Machine) (p o v : Nat) : Machine :=
  { hw := { m.hw with mmMsgbusReg := Function.update m.hw.mmMsgbusReg (p, o) v },
    trace := m.trace ++ [.mmMsgbusWr p o v] }

/-- Resolution step `Chipset.get_register_def`: looks the register up and, for
a `pcicfg`/`mmcfg` register naming a device, copies the device's bus/dev/fun
into the register dictionary, substituting the `bus_index`-th discovered bus
number when a binding exists (out-of-range index reports an error and keeps
the device's static bus).  Because the Python code mutates the stored
dictionary through the alias `reg_def`, the updated definition is also written
back to the store; the updated store is returned alongside. -/
def get_register_def (st : Cfg) (reg_name : String) (bus_index : Nat) :
    Except CsErr (RegDef × Cfg) :=
  match alGet st.REGISTERS reg_name with
  | none => .error (.keyError reg_name)
  | some reg0 =>
    if reg0.rtype = "pcicfg" ∨ reg0.rtype = "mmcfg" then
      match reg0.device with
      | none => .ok (reg0, st)
      | some dev_name =>
        match alGet st.CONFIG_PCI dev_name with
        | none => .ok (reg0, st)
        | some dev =>
          let reg1 : RegDef :=
            { reg0 with bus := some dev.bus, dev := some dev.dev, fnn := some dev.fnn }
          let reg2 : RegDef :=
            match alGet st.BUS dev_name with
            | none => reg1
            | some bus_list =>
              if bus_index < bus_list.length then
                { reg1 with bus := some (bus_list.getD bus_index 0) }
              else reg1
          .ok (reg2, { st with REGISTERS := alSet st.REGISTERS reg_name reg2 })
    else .ok (reg0, st)

/-- Transport half of `Chipset.read_register` (the `if RegisterType... == rtype`
chain): issues the reads for the resolved register's address-space kind and
returns the value.  For `pcicfg` size 8 the two dword reads happen in the
evaluation order of `(read_dword(o+4) << 32) | read_dword(o)`; a `pcicfg` size
outside {1,2,4,8} leaves the initial value 0 without touching hardware, as in
the source. -/
def read_dispatch (reg : RegDef) (m : Machine) (cpu_thread : Nat) :
    Except CsErr (Nat × Machine) := do
  if reg.rtype = "pcicfg" then do
    let some b := reg.bus | throw (.keyError "bus")
    let some d := reg.dev | throw (.keyError "dev")
    let some f := reg.fnn | throw (.keyError "fun")
    let some o := reg.offset | throw (.keyError "offset")
    if reg.size = 1 then
      pure (pci_read_byte m b d f o)
    else if reg.size = 2 then
      pure (pci_read_word m b d f o)
    else if reg.size = 4 then
      pure (pci_read_dword m b d f o)
    else if reg.size = 8 then
      let (hi, m1) := pci_read_dword m b d f (o + 4)
      let (lo, m2) := pci_read_dword m1 b d f o
      pure ((hi <<< 32) ||| lo, m2)
    else
      pure (0, m)
  else if reg.rtype = "mmcfg" then do
    let some b := reg.bus | throw (.keyError "bus")
    let some d := reg.dev | throw (.keyError "dev")
    let some f := reg.fnn | throw (.keyError "fun")
    let some o := reg.offset | throw (.keyError "offset")
    pure (m.hw.mmcfgReg (b, d, f, o, reg.size),
      { m with trace := m.trace ++ [.mmcfgRd b d f o reg.size] })
  else if reg.rtype = "mmio" then do
    let some bar := reg.bar | throw (.keyError "bar")
    let some o := reg.offset | throw (.keyError "offset")
    pure (m.hw.mmioReg (bar, o, reg.size),
      { m with trace := m.trace ++ [.mmioRd bar o reg.size] })
  else if reg.rtype = "msr" then do
    let some a := reg.msr | throw (.keyError "msr")
    let ((eax, edx), m1) := msr_read m cpu_thread a
    pure ((edx <<< 32) ||| eax, m1)
  else if reg.rtype = "io" then do
    let some p := reg.port | throw (.keyError "port")
    pure (m.hw.portReg (p, reg.size),
      { m with trace := m.trace ++ [.portRd p reg.size] })
  else if reg.rtype = "iobar" then do
    let some bar := reg.bar | throw (.keyError "bar")
    let some o := reg.offset | throw (.keyError "offset")
    pure (m.hw.iobarReg (bar, o, reg.size),
      { m with trace := m.trace ++ [.iobarRd bar o reg.size] })
  else if reg.rtype = "msgbus" then do
    let some p := reg.port | throw (.keyError "port")
    let some o := reg.offset | throw (.keyError "offset")
    pure (m.hw.msgbusReg (p, o), { m with trace := m.trace ++ [.msgbusRd p o] })
  else if reg.rtype = "mm_msgbus" then do
    let some p := reg.port | throw (.keyError "port")
    let some o := reg.offset | throw (.keyError "offset")
    pure (m.hw.mmMsgbusReg (p, o), { m with trace := m.trace ++ [.mmMsgbusRd p o] })
  else
    throw (.registerTypeNotFound reg.rtype)

/-- Dispatcher `Chipset.read_register`: resolves the register with
`get_register_def` (which may write the resolved addressing back into the
store), then issues the transport reads for its address-space kind. -/
def read_register (st : Cfg) (m : Machine) (reg_name : String) (cpu_thread bus_index : Nat) :
    Except CsErr (Nat × Cfg × Machine) := do
  let (reg, st1) ← get_register_def st reg_name bus_index
  let (v, m1) ← read_dispatch reg m cpu_thread
  pure (v, st1, m1)

/-- Transport half of `Chipset.write_register`: issues the writes for the
resolved register's address-space kind.  For `pcicfg` size 8 the low dword
`reg_value & 0xFFFFFFFF` is written at the declared offset first, then the
high dword `(reg_value >> 32) & 0xFFFFFFFF` at offset+4; for `msr` the value
is split into `eax`/`edx` halves.  A `pcicfg` size outside {1,2,4,8} writes
nothing, as in the source. -/
def write_dispatch (reg : RegDef) (m : Machine) (reg_value cpu_thread : Nat) :
    Except CsErr Machine := do
  if reg.rtype = "pcicfg" then do
    let some b := reg.bus | throw (.keyError "bus")
    let some d := reg.dev | throw (.keyError "dev")
    let some f := reg.fnn | throw (.keyError "fun")
    let some o := reg.offset | throw (.keyError "offset")
    if reg.size = 1 then
      pure (pci_write_byte m b d f o reg_value)
    else if reg.size = 2 then
      pure (pci_write_word m b d f o reg_value)
    else if reg.size = 4 then
      pure (pci_write_dword m b d f o reg_value)
    else if reg.size = 8 then
      let m1 := pci_write_dword m b d f o (reg_value &&& 0xFFFFFFFF)
      let m2 := pci_write_dword m1 b d f (o + 4) ((reg_value >>> 32) &&& 0xFFFFFFFF)
      pure m2
    else
      pure m
  else if reg.rtype = "mmcfg" then do
    let some b := reg.bus | throw (.keyError "bus")
    let some d := reg.dev | throw (.keyError "dev")
    let some f := reg.fnn | throw (.keyError "fun")
    let some o := reg.offset | throw (.keyError "offset")
    pure (mmcfg_write m b d f o reg.size reg_value)
  else if reg.rtype = "mmio" then do
    let some bar := reg.bar | throw (.keyError "bar")
    let some o := reg.offset | throw (.keyError "offset")
    pure (mmio_bar_write m bar o reg_value reg.size)
  else if reg.rtype = "msr" then do
    let some a := reg.msr | throw (.keyError "msr")
    let eax := reg_value &&& 0xFFFFFFFF
    let edx := (reg_value >>> 32) &&& 0xFFFFFFFF
    pure (msr_write m cpu_thread a eax edx)
  else if reg.rtype = "io" then do
    let some p := reg.port | throw (.keyError "port")
    pure (port_write m p reg_value reg.size)
  else if reg.rtype = "iobar" then do
    let some bar := reg.bar | throw (.keyError "bar")
    let some o := reg.offset | throw (.keyError "offset")
    pure (iobar_write m bar o reg.size reg_value)
  else if reg.rtype = "msgbus" then do
    let some p := reg.port | throw (.keyError "port")
    let some o := reg.offset | throw (.keyError "offset")
    pure (msgbus_write m p o reg_value)
  else if reg.rtype = "mm_msgbus" then do
    let some p := reg.port | throw (.keyError "port")
    let some o := reg.offset | throw (.keyError "offset")
    pure (mm_msgbus_write m p o reg_value)
  else
    throw (.registerTypeNotFound reg.rtype)

/-- Dispatcher `Chipset.write_register`: resolves the register with
`get_register_def`, then issues the transport writes for its
address-space kind. -/
def write_register (st : Cfg) (m : Machine) (reg_name : String) (reg_value : Nat)
    (cpu_thread bus_index : Nat) : Except CsErr (Cfg × Machine) := do
  let (reg, st1) ← get_register_def st reg_name bus_index
  let m1 ← write_dispatch reg m reg_value cpu_thread
  pure (st1, m1)

/-- Field read `Chipset.get_register_field` by register name and value. -/
def get_register_field (st : Cfg) (reg_name : String) (reg_value : Nat) (field_name : String)
    (preserve_field_position : Bool) : Except CsErr (Nat × Cfg) := do
  let (reg_def, st1) ← get_register_def st reg_name 0
  let some flds := reg_def.fields | throw (.keyError "FIELDS")
  let some fa := alGet flds field_name | throw (.keyError field_name)
  pure (get_field_val reg_value fa.bit fa.size preserve_field_position, st1)

/-- Field insert `Chipset.set_register_field` by register name and value. -/
def set_register_field (st : Cfg) (reg_name : String) (reg_value : Nat) (field_name : String)
    (field_value : Nat) (preserve_field_position : Bool) : Except CsErr (Nat × Cfg) := do
  let (reg_def, st1) ← get_register_def st reg_name 0
  let some flds := reg_def.fields | throw (.keyError "FIELDS")
  let some fa := alGet flds field_name | throw (.keyError field_name)
  pure (set_field_val reg_value fa.bit fa.size field_value preserve_field_position, st1)

/-- Compound `Chipset.read_register_field`: read the register (at the given
thread), then extract the field. -/
def read_register_field (st : Cfg) (m : Machine) (reg_name field_name : String)
    (preserve_field_position : Bool) (cpu_thread : Nat) :
    Except CsErr (Nat × Cfg × Machine) := do
  let (reg_value, st1, m1) ← read_register st m reg_name cpu_thread 0
  let (v, st2) ← get_register_field st1 reg_name reg_value field_name preserve_field_position
  pure (v, st2, m1)

/-- Compound `Chipset.write_register_field`: read the whole register, mutate
the named field, write the whole register back. -/
def write_register_field (st : Cfg) (m : Machine) (reg_name field_name : String)
    (field_value : Nat) (preserve_field_position : Bool) (cpu_thread : Nat) :
    Except CsErr (Cfg × Machine) := do
  let (reg_value, st1, m1) ← read_register st m reg_name cpu_thread 0
  let (reg_value_new, st2) ←
    set_register_field st1 reg_name reg_value field_name field_value preserve_field_position
  write_register st2 m1 reg_name reg_value_new cpu_thread 0

/-- Control read `Chipset.get_control`: resolves the alias and performs
`read_register` (with default thread 0 — the `cpu_thread` argument is not
forwarded in the source) followed by `get_register_field` with default flags.
The optional `with_print` logging is omitted as pure output. -/
def get_control (st : Cfg) (m : Machine) (control_name : String) (cpu_thread : Nat) :
    Except CsErr (Nat × Cfg × Machine) := do
  let some control := alGet st.CONTROLS control_name | throw (.keyError control_name)
  let (reg_data, st1, m1) ← read_register st m control.register 0 0
  let (v, st2) ← get_register_field st1 control.register reg_data control.field false
  pure (v, st2, m1)

/-- Control write `Chipset.set_control`: resolves the alias and calls
`write_register_field(reg, field, control_value, cpu_thread)` — the
`cpu_thread` value is passed positionally into the `preserve_field_position`
parameter (where it is used only in truthiness tests, hence `cpu_thread ≠ 0`),
and the write's own `cpu_thread` keeps its default 0. -/
def set_control (st : Cfg) (m : Machine) (control_name : String) (control_value cpu_thread : Nat) :
    Except CsErr (Cfg × Machine) := do
  let some control := alGet st.CONTROLS control_name | throw (.keyError control_name)
  write_register_field st m control.register control.field control_value
    (cpu_thread ≠ 0) 0

/-- Resolution preserves everything about a register definition except its
bus/dev/fun addressing, updates at most the accessed register's own entry in
the store, and never touches any other category map. -/
theorem get_register_def_spec (st : Cfg) (rn : String) (bi : Nat) (rd : RegDef)
    (hr : alGet st.REGISTERS rn = some rd) :
    ∃ rd' st', get_register_def st rn bi = .ok (rd', st') ∧
      rd'.rtype = rd.rtype ∧ rd'.size = rd.size ∧ rd'.fields = rd.fields ∧
      alGet st'.REGISTERS rn = some rd' ∧
      st'.CONFIG_PCI = st.CONFIG_PCI ∧ st'.MMIO_BARS = st.MMIO_BARS ∧
      st'.IO_BARS = st.IO_BARS ∧ st'.MEMORY_RANGES = st.MEMORY_RANGES ∧
      st'.CONTROLS = st.CONTROLS ∧ st'.BUS = st.BUS ∧
      st'.REGISTERS.map Prod.fst = st.REGISTERS.map Prod.fst ∧
      ∀ n, n ≠ rn → alGet st'.REGISTERS n = alGet st.REGISTERS n := by
  simp only [get_register_def, hr]
  by_cases ht : rd.rtype = "pcicfg" ∨ rd.rtype = "mmcfg"
  · rw [if_pos ht]
    cases hd : rd.device with
    | none =>
      exact ⟨rd, st, rfl, rfl, rfl, rfl, hr, rfl, rfl, rfl, rfl, rfl, rfl, rfl,
        fun n _ => rfl⟩
    | some dn =>
      dsimp only
      cases hc : alGet st.CONFIG_PCI dn with
      | none =>
        exact ⟨rd, st, rfl, rfl, rfl, rfl, hr, rfl, rfl, rfl, rfl, rfl, rfl, rfl,
          fun n _ => rfl⟩
      | some dev =>
        dsimp only
        cases hb : alGet st.BUS dn with
        | none =>
          refine ⟨_, _, rfl, rfl, rfl, rfl, alGet_alSet_self .., rfl, rfl, rfl, rfl,
            rfl, rfl, alSet_keys_of_mem _ _ _ rd hr, fun n hn => alGet_alSet_ne _ _ _ _ hn⟩
        | some bus_list =>
          dsimp only
          by_cases hl : bi < bus_list.length
          · rw [if_pos hl]
            refine ⟨_, _, rfl, rfl, rfl, rfl, alGet_alSet_self .., rfl, rfl, rfl, rfl,
              rfl, rfl, alSet_keys_of_mem _ _ _ rd hr, fun n hn => alGet_alSet_ne _ _ _ _ hn⟩
          · rw [if_neg hl]
            refine ⟨_, _, rfl, rfl, rfl, rfl, alGet_alSet_self .., rfl, rfl, rfl, rfl,
              rfl, rfl, alSet_keys_of_mem _ _ _ rd hr, fun n hn => alGet_alSet_ne _ _ _ _ hn⟩
  · rw [if_neg ht]
    exact ⟨rd, st, rfl, rfl, rfl, rfl, hr, rfl, rfl, rfl, rfl, rfl, rfl, rfl,
      fun n _ => rfl⟩

/-!
Claim C1: bit-field round-trip law through `set_register_field` /
`get_register_field`.
-/

/-- C1 (amended): for every register field with `bitWidth ≤ 64 - bitOffset`,
every register value `reg` and every field value `v`: with
`preserve_field_position = False`, get_register_field after set_register_field
yields `v & ((1 << bitWidth) - 1)`; with `preserve_field_position = True` (used
for both calls) it instead yields the masked value left in field position,
`v & (((1 << bitWidth) - 1) << bitOffset)`. -/
theorem c1_field_roundtrip (st : Cfg) (rn fn : String) (rd : RegDef)
    (flds : List (String × FieldDef)) (fd : FieldDef) (reg v : Nat)
    (hr : alGet st.REGISTERS rn = some rd) (hf : rd.fields = some flds)
    (hfd : alGet flds fn = some fd) (hwid : fd.size ≤ 64 - fd.bit) :
    (∃ nv st1 st2, set_register_field st rn reg fn v false = .ok (nv, st1) ∧
       get_register_field st1 rn nv fn false =
         .ok (v &&& ((1 <<< fd.size) - 1), st2)) ∧
    (∃ nv st1 st2, set_register_field st rn reg fn v true = .ok (nv, st1) ∧
       get_register_field st1 rn nv fn true =
         .ok (v &&& (((1 <<< fd.size) - 1) <<< fd.bit), st2)) := by
  obtain ⟨rd1, st1, hgd, hrt, hsz, hfl, hlk, _, _, _, _, _, _, _, _⟩ :=
    get_register_def_spec st rn 0 rd hr
  obtain ⟨rd2, st2, hgd2, hrt2, hsz2, hfl2, hlk2, _, _, _, _, _, _, _, _⟩ :=
    get_register_def_spec st1 rn 0 rd1 hlk
  have hf1 : rd1.fields = some flds := by rw [hfl, hf]
  have hf2 : rd2.fields = some flds := by rw [hfl2, hf1]
  constructor
  · refine ⟨set_field_val reg fd.bit fd.size v false, st1, st2, ?_, ?_⟩
    · simp [set_register_field, hgd, hf1, hfd, exceptBind_ok, exceptPure_eq_ok]
    · simp [get_register_field, hgd2, hf2, hfd, get_set_field_val_false, exceptBind_ok, exceptPure_eq_ok]
  · refine ⟨set_field_val reg fd.bit fd.size v true, st1, st2, ?_, ?_⟩
    · simp [set_register_field, hgd, hf1, hfd, exceptBind_ok, exceptPure_eq_ok]
    · simp [get_register_field, hgd2, hf2, hfd, get_set_field_val_true, exceptBind_ok, exceptPure_eq_ok]

/-- Sample field: bit offset 4, width 4. -/
def c1Fld : FieldDef := { bit := 4, size := 4 }

/-- Sample MSR register with the one field `F`. -/
def c1Reg : RegDef :=
  { rtype := "msr", msr := some 0x10, size := 8, fields := some [("F", c1Fld)] }

/-- Sample store holding only register `R`. -/
def c1Cfg : Cfg := { REGISTERS := [("R", c1Reg)] }

/-- Witness for `c1_field_roundtrip` at the sample store, register value 0 and
field value 1. -/
theorem c1_field_roundtrip_witness :
    (alGet c1Cfg.REGISTERS "R" = some c1Reg ∧ c1Reg.fields = some [("F", c1Fld)] ∧
     alGet [("F", c1Fld)] "F" = some c1Fld ∧ c1Fld.size ≤ 64 - c1Fld.bit) ∧
    ((∃ nv st1 st2, set_register_field c1Cfg "R" 0 "F" 1 false = .ok (nv, st1) ∧
        get_register_field st1 "R" nv "F" false =
          .ok (1 &&& ((1 <<< c1Fld.size) - 1), st2)) ∧
     (∃ nv st1 st2, set_register_field c1Cfg "R" 0 "F" 1 true = .ok (nv, st1) ∧
        get_register_field st1 "R" nv "F" true =
          .ok (1 &&& (((1 <<< c1Fld.size) - 1) <<< c1Fld.bit), st2))) :=
  ⟨⟨by decide, by decide, by decide, by decide⟩,
   c1_field_roundtrip c1Cfg "R" "F" c1Reg [("F", c1Fld)] c1Fld 0 1
     (by decide) (by decide) (by decide) (by decide)⟩

/-- C1 counterexample to the claim as stated: with
`preserve_field_position = True`, at bit offset 4 and width 4, inserting the
field value 1 into register value 0 and extracting it back yields 0, not
`1 & ((1 << 4) - 1) = 1`: the round-trip law with the flag set returns the
value in field position, not right-aligned. -/
theorem c1_roundtrip_claim_counterexample :
    ((set_register_field c1Cfg "R" 0 "F" 1 true).bind
        (fun p => get_register_field p.2 "R" p.1 "F" true)).map Prod.fst ≠
      Except.ok (1 &&& ((1 <<< 4) - 1)) := by
  have h : ((set_register_field c1Cfg "R" 0 "F" 1 true).bind
      (fun p => get_register_field p.2 "R" p.1 "F" true)).map Prod.fst =
      Except.ok (get_field_val (set_field_val 0 4 4 1 true) 4 4 true) := rfl
  rw [h, get_set_field_val_true]
  decide

/-- Reduction of an `Except` bind on an error value. -/
theorem exceptBind_error {e a b : Type} (x : e) (f : a → Except e b) :
    (Except.error x >>= f : Except e b) = Except.error x := rfl

/-- Reduction of `throw` to the `Except` error constructor. -/
theorem exceptThrow_eq_error {e a : Type} (x : e) :
    (throw x : Except e a) = Except.error x := rfl

/-- In a successful `read_register`, the returned store is exactly the one
produced by `get_register_def` (the dispatch half never touches the store). -/
theorem read_register_ok_store (st : Cfg) (m : Machine) (rn : String) (ct bi : Nat)
    (rd1 : RegDef) (st1 : Cfg) (val : Nat) (st' : Cfg) (m' : Machine)
    (hgd : get_register_def st rn bi = .ok (rd1, st1))
    (h : read_register st m rn ct bi = .ok (val, st', m')) : st' = st1 := by
  simp only [read_register, hgd, exceptBind_ok] at h
  cases hdp : read_dispatch rd1 m ct with
  | error e =>
    rw [hdp, exceptBind_error] at h
    cases h
  | ok p =>
    obtain ⟨v, m1⟩ := p
    rw [hdp, exceptBind_ok] at h
    simp only [exceptPure_eq_ok, Except.ok.injEq, Prod.mk.injEq] at h
    exact h.2.1.symm

/-- In a successful `write_register`, the returned store is exactly the one
produced by `get_register_def`. -/
theorem write_register_ok_store (st : Cfg) (m : Machine) (rn : String) (v ct bi : Nat)
    (rd1 : RegDef) (st1 : Cfg) (st' : Cfg) (m' : Machine)
    (hgd : get_register_def st rn bi = .ok (rd1, st1))
    (h : write_register st m rn v ct bi = .ok (st', m')) : st' = st1 := by
  simp only [write_register, hgd, exceptBind_ok] at h
  cases hdp : write_dispatch rd1 m v ct with
  | error e =>
    rw [hdp, exceptBind_error] at h
    cases h
  | ok m1 =>
    rw [hdp, exceptBind_ok] at h
    simp only [exceptPure_eq_ok, Except.ok.injEq, Prod.mk.injEq] at h
    exact h.1.symm

/-!
Claim C5: an unknown address-space kind is always a fatal
`RegisterTypeNotFound`, for both reads and writes.
-/

/-- C5: for every defined register whose `type` attribute is none of the eight
kinds `pcicfg, mmcfg, mmio, msr, io, iobar, msgbus, mm_msgbus`, both
`read_register` and `write_register` raise `RegisterTypeNotFoundError` carrying
that type, and never return a value. -/
theorem c5_unknown_register_type (st : Cfg) (m : Machine) (rn : String) (rd : RegDef)
    (ct bi v : Nat) (hr : alGet st.REGISTERS rn = some rd)
    (hu : rd.rtype ∉
      (["pcicfg", "mmcfg", "mmio", "msr", "io", "iobar", "msgbus", "mm_msgbus"] :
        List String)) :
    read_register st m rn ct bi = .error (.registerTypeNotFound rd.rtype) ∧
    write_register st m rn v ct bi = .error (.registerTypeNotFound rd.rtype) := by
  obtain ⟨rd1, st1, hgd, hrt, _, _, _, _, _, _, _, _, _, _, _⟩ :=
    get_register_def_spec st rn bi rd hr
  simp only [List.mem_cons, List.not_mem_nil, or_false, not_or] at hu
  obtain ⟨h1, h2, h3, h4, h5, h6, h7, h8⟩ := hu
  have hrd : read_dispatch rd1 m ct = .error (.registerTypeNotFound rd.rtype) := by
    unfold read_dispatch
    rw [hrt]
    simp [h1, h2, h3, h4, h5, h6, h7, h8, exceptThrow_eq_error]
  have hwd : write_dispatch rd1 m v ct = .error (.registerTypeNotFound rd.rtype) := by
    unfold write_dispatch
    rw [hrt]
    simp [h1, h2, h3, h4, h5, h6, h7, h8, exceptThrow_eq_error]
  constructor
  · simp [read_register, hgd, exceptBind_ok, hrd, exceptBind_error]
  · simp [write_register, hgd, exceptBind_ok, hwd, exceptBind_error]

/-- All-zero hardware state used for concrete witnesses. -/
def hw0 : HW :=
  { pciByte := fun _ => 0, pciWord := fun _ => 0, pciDword := fun _ => 0,
    mmcfgReg := fun _ => 0, mmioReg := fun _ => 0, msrReg := fun _ => (0, 0),
    portReg := fun _ => 0, iobarReg := fun _ => 0, msgbusReg := fun _ => 0,
    mmMsgbusReg := fun _ => 0 }

/-- Machine with all-zero hardware and an empty trace. -/
def m0 : Machine := { hw := hw0, trace := [] }

/-- Register with an unrecognized address-space kind. -/
def c5Reg : RegDef := { rtype := "badtype" }

/-- Store holding only the bad-typed register `X`. -/
def c5Cfg : Cfg := { REGISTERS := [("X", c5Reg)] }

/-- Witness for `c5_unknown_register_type` at the concrete bad-typed register. -/
theorem c5_unknown_register_type_witness :
    (alGet c5Cfg.REGISTERS "X" = some c5Reg ∧
     c5Reg.rtype ∉
       (["pcicfg", "mmcfg", "mmio", "msr", "io", "iobar", "msgbus", "mm_msgbus"] :
         List String)) ∧
    read_register c5Cfg m0 "X" 0 0 = .error (.registerTypeNotFound c5Reg.rtype) ∧
    write_register c5Cfg m0 "X" 5 0 0 = .error (.registerTypeNotFound c5Reg.rtype) :=
  ⟨⟨by decide, by decide⟩,
   c5_unknown_register_type c5Cfg m0 "X" c5Reg 0 0 5 (by decide) (by decide)⟩

/-!
Claim C6: what register access does (and does not do) to the configuration
store.
-/

/-- Frame property of a register access on the store: every category map other
than `REGISTERS` is untouched, the set of register names is unchanged, every
other register's descriptor is unchanged, and the accessed register still
carries its type, size and fields (only its bus/dev/fun addressing may have
been rewritten by resolution). -/
def cfgFrame (st st' : Cfg) (rn : String) (rd : RegDef) : Prop :=
  st'.CONFIG_PCI = st.CONFIG_PCI ∧ st'.MMIO_BARS = st.MMIO_BARS ∧
  st'.IO_BARS = st.IO_BARS ∧ st'.MEMORY_RANGES = st.MEMORY_RANGES ∧
  st'.CONTROLS = st.CONTROLS ∧ st'.BUS = st.BUS ∧
  st'.REGISTERS.map Prod.fst = st.REGISTERS.map Prod.fst ∧
  (∀ n, n ≠ rn → alGet st'.REGISTERS n = alGet st.REGISTERS n) ∧
  ∃ rd', alGet st'.REGISTERS rn = some rd' ∧ rd'.rtype = rd.rtype ∧
    rd'.size = rd.size ∧ rd'.fields = rd.fields

/-- C6 (amended): a successful `read_register` or `write_register` never adds
or removes a name in any category, never changes any category map other than
`REGISTERS`, and changes at most the accessed register's own descriptor —
whose type, size and fields it preserves (`get_register_def` may write the
resolved bus/dev/fun back into it through the stored alias). -/
theorem c6_register_access_frame (st : Cfg) (m : Machine) (rn : String) (rd : RegDef)
    (ct bi v : Nat) (hr : alGet st.REGISTERS rn = some rd) :
    (∀ val st' m', read_register st m rn ct bi = .ok (val, st', m') →
       cfgFrame st st' rn rd) ∧
    (∀ st' m', write_register st m rn v ct bi = .ok (st', m') →
       cfgFrame st st' rn rd) := by
  obtain ⟨rd1, st1, hgd, hrt, hsz, hfl, hlk, hc1, hc2, hc3, hc4, hc5, hc6, hkeys, hframe⟩ :=
    get_register_def_spec st rn bi rd hr
  constructor
  · intro val st' m' h
    have hst : st' = st1 := read_register_ok_store st m rn ct bi rd1 st1 val st' m' hgd h
    subst hst
    exact ⟨hc1, hc2, hc3, hc4, hc5, hc6, hkeys, hframe, rd1, hlk, hrt, hsz, hfl⟩
  · intro st' m' h
    have hst : st' = st1 := write_register_ok_store st m rn v ct bi rd1 st1 st' m' hgd h
    subst hst
    exact ⟨hc1, hc2, hc3, hc4, hc5, hc6, hkeys, hframe, rd1, hlk, hrt, hsz, hfl⟩

/-- Device `D0` declared at bus 1, device 2, function 3. -/
def c6Dev : PciDevice :=
  { bus := 1, dev := 2, fnn := 3, vid := some 0x8086, did := some [0x100] }

/-- PCI-config register referencing device `D0`, with no `bus` attribute of
its own before resolution. -/
def c6Reg : RegDef := { rtype := "pcicfg", device := some "D0", offset := some 0x40 }

/-- Store with device `D0` and register `R0`. -/
def c6Cfg : Cfg := { CONFIG_PCI := [("D0", c6Dev)], REGISTERS := [("R0", c6Reg)] }

/-- Witness for `c6_register_access_frame` at the concrete store. -/
theorem c6_register_access_frame_witness :
    alGet c6Cfg.REGISTERS "R0" = some c6Reg ∧
    ((∀ val st' m', read_register c6Cfg m0 "R0" 0 0 = .ok (val, st', m') →
        cfgFrame c6Cfg st' "R0" c6Reg) ∧
     (∀ st' m', write_register c6Cfg m0 "R0" 5 0 0 = .ok (st', m') →
        cfgFrame c6Cfg st' "R0" c6Reg)) :=
  ⟨by decide, c6_register_access_frame c6Cfg m0 "R0" c6Reg 0 0 5 (by decide)⟩

/-- C6 counterexample to the claim as stated: `read_register` does mutate the
stored descriptor of the accessed register — after reading `R0`, the stored
definition has acquired the resolved `bus`/`dev`/`fun` of device `D0`, so the
store is not left unchanged. -/
theorem c6_mutation_counterexample :
    (read_register c6Cfg m0 "R0" 0 0).map (fun p => alGet p.2.1.REGISTERS "R0") ≠
      Except.ok (alGet c6Cfg.REGISTERS "R0") := by decide

/-!
Claim C2: 64-bit PCI-config registers are split across two 32-bit accesses.
-/

/-- Recomposition of a 64-bit value from its two dword halves. -/
theorem lo_hi_recompose (v : Nat) (hv : v < 2 ^ 64) :
    ((((v >>> 32) &&& 0xFFFFFFFF) <<< 32) ||| (v &&& 0xFFFFFFFF)) = v := by
  have hm : (0xFFFFFFFF : Nat) = (1 <<< 32) - 1 := by decide
  apply Nat.eq_of_testBit_eq
  intro i
  simp only [hm, Nat.testBit_lor, Nat.testBit_land, Nat.testBit_shiftLeft,
    Nat.testBit_shiftRight, testBit_mask, ge_iff_le]
  by_cases h32 : 32 ≤ i
  · have h2 : 32 + (i - 32) = i := by omega
    rw [h2]
    by_cases h64 : i < 64
    · have h1 : i - 32 < 32 := by omega
      have h3 : ¬ i < 32 := by omega
      simp [h32, h1, h3]
    · have hz : v.testBit i = false := by
        refine Nat.testBit_eq_false_of_lt (lt_of_lt_of_le hv ?_)
        exact Nat.pow_le_pow_right (by norm_num) (by omega)
      have h3 : ¬ i < 32 := by omega
      simp [h32, hz, h3]
  · have h3 : i < 32 := by omega
    simp [h32, h3]

/-- C2 (amended): for a resolved PCI-config register of declared size 8,
`read_register` performs exactly two dword transport accesses — the HIGH dword
at offset+4 first, then the low dword at the declared offset (the evaluation
order of `(read_dword(o+4) << 32) | read_dword(o)`) — combined as
`(high << 32) | low`; `write_register` splits the value into a low dword
written at the offset first and a high dword written at offset+4; and a
write-then-read of any value below `2^64` returns it unchanged, so a value
with only high-dword bits set is never lost. -/
theorem c2_pcicfg_size8 (st : Cfg) (m : Machine) (rn : String) (ct bi : Nat)
    (rd1 : RegDef) (st1 : Cfg) (b d f o : Nat)
    (hgd : get_register_def st rn bi = .ok (rd1, st1))
    (ht : rd1.rtype = "pcicfg") (hs : rd1.size = 8)
    (hb : rd1.bus = some b) (hd : rd1.dev = some d) (hf : rd1.fnn = some f)
    (ho : rd1.offset = some o) :
    read_register st m rn ct bi =
      .ok ((m.hw.pciDword (b, d, f, o + 4) <<< 32) ||| m.hw.pciDword (b, d, f, o), st1,
        { m with trace := m.trace ++ [.pciRd 4 b d f (o + 4), .pciRd 4 b d f o] }) ∧
    (∀ v, write_register st m rn v ct bi =
      .ok (st1, pci_write_dword (pci_write_dword m b d f o (v &&& 0xFFFFFFFF))
        b d f (o + 4) ((v >>> 32) &&& 0xFFFFFFFF))) ∧
    (∀ v, v < 2 ^ 64 → ∀ st2 m2, write_register st m rn v ct bi = .ok (st2, m2) →
      ∀ rd2 st3, get_register_def st2 rn bi = .ok (rd2, st3) →
        rd2.rtype = "pcicfg" → rd2.size = 8 → rd2.bus = some b → rd2.dev = some d →
        rd2.fnn = some f → rd2.offset = some o →
        ∃ m3, read_register st2 m2 rn ct bi = .ok (v, st3, m3)) := by
  have hrdisp : ∀ (rr : RegDef) (mm : Machine), rr.rtype = "pcicfg" → rr.size = 8 →
      rr.bus = some b → rr.dev = some d → rr.fnn = some f → rr.offset = some o →
      read_dispatch rr mm ct =
      .ok ((mm.hw.pciDword (b, d, f, o + 4) <<< 32) ||| mm.hw.pciDword (b, d, f, o),
        { mm with trace := mm.trace ++ [.pciRd 4 b d f (o + 4), .pciRd 4 b d f o] }) := by
    intro rr mm h1 h2 h3 h4 h5 h6
    unfold read_dispatch
    rw [h1, h2, h3, h4, h5, h6]
    simp [pci_read_dword, exceptPure_eq_ok]
  have hwdisp : ∀ v, write_dispatch rd1 m v ct =
      .ok (pci_write_dword (pci_write_dword m b d f o (v &&& 0xFFFFFFFF))
        b d f (o + 4) ((v >>> 32) &&& 0xFFFFFFFF)) := by
    intro v
    unfold write_dispatch
    rw [ht, hs, hb, hd, hf, ho]
    simp [exceptPure_eq_ok]
  have hwreg : ∀ v, write_register st m rn v ct bi =
      .ok (st1, pci_write_dword (pci_write_dword m b d f o (v &&& 0xFFFFFFFF))
        b d f (o + 4) ((v >>> 32) &&& 0xFFFFFFFF)) := by
    intro v
    simp [write_register, hgd, exceptBind_ok, hwdisp v, exceptPure_eq_ok]
  refine ⟨?_, hwreg, ?_⟩
  · simp [read_register, hgd, exceptBind_ok, hrdisp rd1 m ht hs hb hd hf ho,
      exceptPure_eq_ok]
  · intro v hv st2 m2 hwr rd2 st3 hgd2 ht2 hs2 hb2 hd2 hf2 ho2
    rw [hwreg v] at hwr
    have hpair : st1 = st2 ∧
        pci_write_dword (pci_write_dword m b d f o (v &&& 0xFFFFFFFF))
          b d f (o + 4) ((v >>> 32) &&& 0xFFFFFFFF) = m2 := by
      simpa [Except.ok.injEq, Prod.mk.injEq] using hwr
    have hne : ((b, d, f, o) : Nat × Nat × Nat × Nat) ≠ (b, d, f, o + 4) := by
      simp only [ne_eq, Prod.mk.injEq, not_and]
      intro _ _ _
      omega
    have e1 : m2.hw.pciDword (b, d, f, o + 4) = (v >>> 32) &&& 0xFFFFFFFF := by
      rw [← hpair.2]
      simp [pci_write_dword, Function.update_same]
    have e2 : m2.hw.pciDword (b, d, f, o) = v &&& 0xFFFFFFFF := by
      rw [← hpair.2]
      simp [pci_write_dword, Function.update_noteq hne]
    refine ⟨{ m2 with trace := m2.trace ++ [.pciRd 4 b d f (o + 4), .pciRd 4 b d f o] }, ?_⟩
    rw [read_register]
    simp only [hgd2, exceptBind_ok, hrdisp rd2 m2 ht2 hs2 hb2 hd2 hf2 ho2,
      exceptPure_eq_ok]
    rw [e1, e2, lo_hi_recompose v hv]

/-- Device-less 64-bit PCI-config register at 0:0.0 offset 0x40. -/
def c2Reg : RegDef :=
  { rtype := "pcicfg", bus := some 0, dev := some 0, fnn := some 0,
    offset := some 0x40, size := 8 }

/-- Store holding only the 64-bit register `R64`. -/
def c2Cfg : Cfg := { REGISTERS := [("R64", c2Reg)] }

/-- Witness for `c2_pcicfg_size8` at the concrete 64-bit register. -/
theorem c2_pcicfg_size8_witness :
    (get_register_def c2Cfg "R64" 0 = .ok (c2Reg, c2Cfg) ∧ c2Reg.rtype = "pcicfg" ∧
     c2Reg.size = 8 ∧ c2Reg.bus = some 0 ∧ c2Reg.dev = some 0 ∧ c2Reg.fnn = some 0 ∧
     c2Reg.offset = some 0x40) ∧
    read_register c2Cfg m0 "R64" 0 0 =
      .ok ((m0.hw.pciDword (0, 0, 0, 0x40 + 4) <<< 32) ||| m0.hw.pciDword (0, 0, 0, 0x40),
        c2Cfg,
        { m0 with trace := m0.trace ++ [.pciRd 4 0 0 0 (0x40 + 4), .pciRd 4 0 0 0 0x40] }) :=
  ⟨⟨by decide, rfl, rfl, rfl, rfl, rfl, rfl⟩,
   (c2_pcicfg_size8 c2Cfg m0 "R64" 0 0 c2Reg c2Cfg 0 0 0 0x40
     (by decide) rfl rfl rfl rfl rfl rfl).1⟩

/-- C2 counterexample to the claim as stated: the two dword reads of a size-8
PCI-config register do not happen low-dword-first — the issued trace is
`[read (offset+4), read offset]`, not `[read offset, read (offset+4)]`. -/
theorem c2_read_order_counterexample :
    (read_register c2Cfg m0 "R64" 0 0).map (fun p => p.2.2.trace) ≠
      Except.ok ([.pciRd 4 0 0 0 0x40, .pciRd 4 0 0 0 0x44] : List Access) := by decide

/-!
Claim C7: controls as pass-through aliases.
-/

/-- C7 (amended): for a defined control, `get_control` equals the field-level
read `read_register_field(register, field, default flags, thread 0)` for every
requested thread index (the source never forwards its `cpu_thread` argument);
and `set_control` equals `write_register_field(register, field, value,
preserve_field_position = (thread ≠ 0), thread 0)` — the source passes its
`cpu_thread` argument positionally into the preserve-position parameter.  For
thread index 0 both are exactly the claimed pass-throughs. -/
theorem c7_control_passthrough (st : Cfg) (m : Machine) (cn : String) (ctl : ControlDef)
    (cv ct : Nat) (hc : alGet st.CONTROLS cn = some ctl) :
    get_control st m cn ct = read_register_field st m ctl.register ctl.field false 0 ∧
    set_control st m cn cv ct =
      write_register_field st m ctl.register ctl.field cv (ct ≠ 0) 0 := by
  constructor
  · simp only [get_control, read_register_field, hc]
  · simp only [set_control, hc]

/-- Field at bit 0, width 4. -/
def c7Fld : FieldDef := { bit := 0, size := 4 }

/-- MSR register `R` with field `F`. -/
def c7Reg : RegDef := { rtype := "msr", msr := some 0x10, fields := some [("F", c7Fld)] }

/-- Control `C` aliasing register `R`, field `F`. -/
def c7Ctl : ControlDef := { register := "R", field := "F" }

/-- Store with register `R` and control `C`. -/
def c7Cfg : Cfg := { REGISTERS := [("R", c7Reg)], CONTROLS := [("C", c7Ctl)] }

/-- Hardware whose MSR reads differ between thread 0 (value 0) and
thread 1 (value 0xF). -/
def c7HW : HW := { hw0 with msrReg := fun p => if p.1 = 1 then (0xF, 0) else (0, 0) }

/-- Machine over `c7HW` with an empty trace. -/
def c7M : Machine := { hw := c7HW, trace := [] }

/-- Witness for `c7_control_passthrough` at the concrete control. -/
theorem c7_control_passthrough_witness :
    alGet c7Cfg.CONTROLS "C" = some c7Ctl ∧
    (get_control c7Cfg c7M "C" 0 = read_register_field c7Cfg c7M "R" "F" false 0 ∧
     set_control c7Cfg c7M "C" 3 0 =
       write_register_field c7Cfg c7M "R" "F" 3 ((0 : Nat) ≠ 0) 0) :=
  ⟨by decide, c7_control_passthrough c7Cfg c7M "C" c7Ctl 3 0 (by decide)⟩

/-- C7 counterexample to the claim as stated: with thread index 1 and an MSR
whose value differs across threads, `get_control` returns the thread-0 value
(0), not the value of the field-level read at the given thread (0xF). -/
theorem c7_thread_passthrough_counterexample :
    (get_control c7Cfg c7M "C" 1).map (fun p => p.1) ≠
      (read_register_field c7Cfg c7M "R" "F" false 1).map (fun p => p.1) := by decide

/-!
Claim C4: override/undef semantics of `Chipset.init_cfg_xml` within an
applied configuration section.
-/

/-- One entry of a configuration section as processed by `init_cfg_xml`: its
`name` attribute (deleted from the attribute dictionary first), whether an
`undef` marker is present, and its full remaining attribute set. -/
structure UEntry (α : Type) where
  name : String
  undef : Bool
  attrs : α
  deriving DecidableEq, Repr

/-- Application of one entry to a category map, exactly as each of the six
category loops of `init_cfg_xml` does it: an entry with an `undef` marker
deletes the name when present (a membership-guarded `pop(name, None)`, which
cannot raise) and does nothing when absent; any other entry assigns its full
attribute set under the name, replacing any existing definition wholesale. -/
def applyEntry {α : Type} (mp : List (String × α)) (e : UEntry α) : List (String × α) :=
  if e.undef then
    if (alGet mp e.name).isSome then alErase mp e.name else mp
  else alSet mp e.name e.attrs

/-- Application of a section's entries to one category, in document order. -/
def applySection {α : Type} (mp : List (String × α)) (es : List (UEntry α)) :
    List (String × α) :=
  es.foldl applyEntry mp

/-- Last entry of the list carrying the given name (later entries win). -/
def lastEntryFor {α : Type} (n : String) (es : List (UEntry α)) : Option (UEntry α) :=
  es.foldl (fun acc e => if e.name = n then some e else acc) none

/-- Value a category maps a name to after a section is applied: the last entry
under that name decides (none if it is a removal), else the prior value. -/
def lastVal {α : Type} (n : String) (es : List (UEntry α)) (dflt : Option α) : Option α :=
  match lastEntryFor n es with
  | some e => if e.undef then none else some e.attrs
  | none => dflt

theorem mem_keys_alSet {α : Type} (m : List (String × α)) (k x : String) (v : α) :
    x ∈ (alSet m k v).map Prod.fst ↔ x ∈ m.map Prod.fst ∨ x = k := by
  induction m with
  | nil => simp [alSet]
  | cons hd tl ih =>
    obtain ⟨k₀, v₀⟩ := hd
    simp only [alSet]
    by_cases h0 : k₀ = k
    · rw [if_pos h0]
      subst h0
      simp only [List.map_cons, List.mem_cons]
      tauto
    · rw [if_neg h0]
      simp only [List.map_cons, List.mem_cons, ih]
      tauto

theorem alSet_keys_nodup {α : Type} (m : List (String × α)) (k : String) (v : α)
    (hnd : (m.map Prod.fst).Nodup) : ((alSet m k v).map Prod.fst).Nodup := by
  induction m with
  | nil => simp [alSet]
  | cons hd tl ih =>
    obtain ⟨k₀, v₀⟩ := hd
    simp only [List.map_cons, List.nodup_cons] at hnd
    simp only [alSet]
    by_cases h0 : k₀ = k
    · rw [if_pos h0]
      subst h0
      simp only [List.map_cons, List.nodup_cons]
      exact hnd
    · rw [if_neg h0]
      simp only [List.map_cons, List.nodup_cons]
      refine ⟨?_, ih hnd.2⟩
      rw [mem_keys_alSet]
      rintro (h | rfl)
      · exact hnd.1 h
      · exact h0 rfl

theorem alErase_keys_sublist {α : Type} (m : List (String × α)) (k : String) :
    List.Sublist ((alErase m k).map Prod.fst) (m.map Prod.fst) := by
  induction m with
  | nil => simp [alErase]
  | cons hd tl ih =>
    obtain ⟨k₀, v₀⟩ := hd
    simp only [alErase]
    by_cases h0 : k₀ = k
    · rw [if_pos h0]
      simp only [List.map_cons]
      exact List.Sublist.cons k₀ (List.Sublist.refl _)
    · rw [if_neg h0]
      simp only [List.map_cons]
      exact ih.cons₂ k₀

theorem applyEntry_keys_nodup {α : Type} (mp : List (String × α)) (e : UEntry α)
    (hnd : (mp.map Prod.fst).Nodup) : ((applyEntry mp e).map Prod.fst).Nodup := by
  unfold applyEntry
  by_cases hu : e.undef
  · rw [if_pos hu]
    by_cases hs : (alGet mp e.name).isSome
    · rw [if_pos hs]
      exact hnd.sublist (alErase_keys_sublist mp e.name)
    · rwa [if_neg hs]
  · rw [if_neg hu]
    exact alSet_keys_nodup mp e.name e.attrs hnd

/-- The set of names in a category never grows except by explicit definition
and never loses entries except by explicit removal: applying a section keeps
the category's keys free of duplicates. -/
theorem applySection_keys_nodup {α : Type} (es : List (UEntry α))
    (mp : List (String × α)) (hnd : (mp.map Prod.fst).Nodup) :
    ((applySection mp es).map Prod.fst).Nodup := by
  induction es generalizing mp with
  | nil => exact hnd
  | cons e rest ih => exact ih (applyEntry mp e) (applyEntry_keys_nodup mp e hnd)

theorem lastEntryFor_acc {α : Type} (n : String) (rest : List (UEntry α))
    (acc : Option (UEntry α)) :
    rest.foldl (fun a e => if e.name = n then some e else a) acc =
      match lastEntryFor n rest with
      | some e => some e
      | none => acc := by
  induction rest generalizing acc with
  | nil => simp [lastEntryFor]
  | cons e' rest' ih =>
    simp only [lastEntryFor, List.foldl_cons] at ih ⊢
    rw [ih (if e'.name = n then some e' else acc),
      ih (if e'.name = n then some e' else none)]
    cases List.foldl (fun a e => if e.name = n then some e else a) none rest' with
    | some e'' => rfl
    | none =>
      by_cases hn : e'.name = n
      · rw [if_pos hn, if_pos hn]
      · rw [if_neg hn, if_neg hn]

theorem lastEntryFor_cons {α : Type} (n : String) (e : UEntry α)
    (rest : List (UEntry α)) :
    lastEntryFor n (e :: rest) =
      match lastEntryFor n rest with
      | some x => some x
      | none => if e.name = n then some e else none := by
  unfold lastEntryFor
  simp only [List.foldl_cons]
  exact lastEntryFor_acc n rest (if e.name = n then some e else none)

theorem lastVal_cons {α : Type} (n : String) (e : UEntry α) (rest : List (UEntry α))
    (dflt : Option α) :
    lastVal n (e :: rest) dflt =
      lastVal n rest
        (if e.name = n then (if e.undef then none else some e.attrs) else dflt) := by
  unfold lastVal
  rw [lastEntryFor_cons]
  cases hres : lastEntryFor n rest with
  | some x => rfl
  | none =>
    by_cases hn : e.name = n
    · rw [if_pos hn, if_pos hn]
    · rw [if_neg hn, if_neg hn]

theorem applyEntry_lookup_ne {α : Type} (mp : List (String × α)) (e : UEntry α)
    (n : String) (hne : e.name ≠ n) : alGet (applyEntry mp e) n = alGet mp n := by
  unfold applyEntry
  have hn : n ≠ e.name := fun hh => hne (Eq.symm hh)
  by_cases hu : e.undef
  · rw [if_pos hu]
    by_cases hs : (alGet mp e.name).isSome
    · rw [if_pos hs]
      exact alGet_alErase_ne mp e.name n hn
    · rw [if_neg hs]
  · rw [if_neg hu]
    exact alGet_alSet_ne mp e.name n e.attrs hn

theorem applyEntry_lookup {α : Type} (mp : List (String × α)) (e : UEntry α)
    (n : String) (hnd : (mp.map Prod.fst).Nodup) :
    alGet (applyEntry mp e) n =
      if e.name = n then (if e.undef then none else some e.attrs) else alGet mp n := by
  by_cases hn : e.name = n
  · rw [if_pos hn]
    unfold applyEntry
    by_cases hu : e.undef
    · rw [if_pos hu, if_pos hu]
      by_cases hs : (alGet mp e.name).isSome
      · rw [if_pos hs, ← hn]
        exact alGet_alErase_self mp e.name hnd
      · rw [if_neg hs, ← hn]
        cases hg : alGet mp e.name with
        | some v => rw [hg] at hs; simp at hs
        | none => rfl
    · rw [if_neg hu, if_neg hu, ← hn]
      exact alGet_alSet_self mp e.name e.attrs
  · rw [if_neg hn]
    exact applyEntry_lookup_ne mp e n hn

/-- Lookup after applying a section: the last entry naming the key decides
(removed if it is an `undef` entry, else its full attribute set replaces
everything), and a name no entry carries keeps its prior binding. -/
theorem applySection_lookup {α : Type} (es : List (UEntry α)) (mp : List (String × α))
    (hnd : (mp.map Prod.fst).Nodup) (n : String) :
    alGet (applySection mp es) n = lastVal n es (alGet mp n) := by
  induction es generalizing mp with
  | nil => rfl
  | cons e rest ih =>
    rw [show applySection mp (e :: rest) = applySection (applyEntry mp e) rest from rfl,
      ih (applyEntry mp e) (applyEntry_keys_nodup mp e hnd),
      applyEntry_lookup mp e n hnd, lastVal_cons]

/-- One applied `configuration` section, already split into the six category
entry lists that `init_cfg_xml` walks in document order. -/
structure CfgSection where
  pci_devices : List (UEntry PciDevice) := []
  mmio_bars : List (UEntry (List (String × String))) := []
  io_bars : List (UEntry (List (String × String))) := []
  memory_ranges : List (UEntry (List (String × String))) := []
  registers : List (UEntry RegDef) := []
  controls : List (UEntry ControlDef) := []

/-- Application of one applied section to the store: each of the six category
loops of `init_cfg_xml` is a fold of `applyEntry` over that category's
entries. -/
def init_cfg_section (cfg : Cfg) (s : CfgSection) : Cfg :=
  { cfg with
    CONFIG_PCI := applySection cfg.CONFIG_PCI s.pci_devices,
    MMIO_BARS := applySection cfg.MMIO_BARS s.mmio_bars,
    IO_BARS := applySection cfg.IO_BARS s.io_bars,
    MEMORY_RANGES := applySection cfg.MEMORY_RANGES s.memory_ranges,
    REGISTERS := applySection cfg.REGISTERS s.registers,
    CONTROLS := applySection cfg.CONTROLS s.controls }

/-- C4: within an applied section, for each of the six categories, an `undef`
entry deletes its name (and is a no-op — never an error — when the name is
absent), any other entry replaces the existing definition with its full
attribute set, so each category maps each name to at most one complete
definition — the last non-removed one — and names stay unique. -/
theorem c4_section_override (cfg : Cfg) (s : CfgSection)
    (h1 : (cfg.CONFIG_PCI.map Prod.fst).Nodup) (h2 : (cfg.MMIO_BARS.map Prod.fst).Nodup)
    (h3 : (cfg.IO_BARS.map Prod.fst).Nodup) (h4 : (cfg.MEMORY_RANGES.map Prod.fst).Nodup)
    (h5 : (cfg.REGISTERS.map Prod.fst).Nodup) (h6 : (cfg.CONTROLS.map Prod.fst).Nodup) :
    (∀ n,
      alGet (init_cfg_section cfg s).CONFIG_PCI n =
        lastVal n s.pci_devices (alGet cfg.CONFIG_PCI n) ∧
      alGet (init_cfg_section cfg s).MMIO_BARS n =
        lastVal n s.mmio_bars (alGet cfg.MMIO_BARS n) ∧
      alGet (init_cfg_section cfg s).IO_BARS n =
        lastVal n s.io_bars (alGet cfg.IO_BARS n) ∧
      alGet (init_cfg_section cfg s).MEMORY_RANGES n =
        lastVal n s.memory_ranges (alGet cfg.MEMORY_RANGES n) ∧
      alGet (init_cfg_section cfg s).REGISTERS n =
        lastVal n s.registers (alGet cfg.REGISTERS n) ∧
      alGet (init_cfg_section cfg s).CONTROLS n =
        lastVal n s.controls (alGet cfg.CONTROLS n)) ∧
    (((init_cfg_section cfg s).CONFIG_PCI.map Prod.fst).Nodup ∧
     ((init_cfg_section cfg s).MMIO_BARS.map Prod.fst).Nodup ∧
     ((init_cfg_section cfg s).IO_BARS.map Prod.fst).Nodup ∧
     ((init_cfg_section cfg s).MEMORY_RANGES.map Prod.fst).Nodup ∧
     ((init_cfg_section cfg s).REGISTERS.map Prod.fst).Nodup ∧
     ((init_cfg_section cfg s).CONTROLS.map Prod.fst).Nodup) ∧
    (∀ (α : Type) (mp : List (String × α)) (e : UEntry α),
      e.undef = true → alGet mp e.name = none → applyEntry mp e = mp) := by
  refine ⟨?_, ⟨?_, ?_, ?_, ?_, ?_, ?_⟩, ?_⟩
  · intro n
    exact ⟨applySection_lookup s.pci_devices cfg.CONFIG_PCI h1 n,
      applySection_lookup s.mmio_bars cfg.MMIO_BARS h2 n,
      applySection_lookup s.io_bars cfg.IO_BARS h3 n,
      applySection_lookup s.memory_ranges cfg.MEMORY_RANGES h4 n,
      applySection_lookup s.registers cfg.REGISTERS h5 n,
      applySection_lookup s.controls cfg.CONTROLS h6 n⟩
  · exact applySection_keys_nodup s.pci_devices cfg.CONFIG_PCI h1
  · exact applySection_keys_nodup s.mmio_bars cfg.MMIO_BARS h2
  · exact applySection_keys_nodup s.io_bars cfg.IO_BARS h3
  · exact applySection_keys_nodup s.memory_ranges cfg.MEMORY_RANGES h4
  · exact applySection_keys_nodup s.registers cfg.REGISTERS h5
  · exact applySection_keys_nodup s.controls cfg.CONTROLS h6
  · intro α mp e hu hg
    unfold applyEntry
    rw [if_pos hu, if_neg (by rw [hg]; simp)]

/-- Section defining register `A`, redefining it wholesale, then removing
register `B` (absent — a no-op), then removing `A`. -/
def c4Section : CfgSection :=
  { registers :=
      [⟨"A", false, { rtype := "msr", msr := some 1 }⟩,
       ⟨"A", false, { rtype := "io", port := some 0x62 }⟩,
       ⟨"B", true, { rtype := "msr" }⟩,
       ⟨"A", true, { rtype := "msr" }⟩] }

/-- Witness for `c4_section_override`: applying `c4Section` to the empty store. -/
theorem c4_section_override_witness :
    ((({} : Cfg).CONFIG_PCI.map Prod.fst).Nodup ∧
     (({} : Cfg).REGISTERS.map Prod.fst).Nodup) ∧
    (∀ n,
      alGet (init_cfg_section {} c4Section).CONFIG_PCI n =
        lastVal n c4Section.pci_devices (alGet ({} : Cfg).CONFIG_PCI n) ∧
      alGet (init_cfg_section {} c4Section).MMIO_BARS n =
        lastVal n c4Section.mmio_bars (alGet ({} : Cfg).MMIO_BARS n) ∧
      alGet (init_cfg_section {} c4Section).IO_BARS n =
        lastVal n c4Section.io_bars (alGet ({} : Cfg).IO_BARS n) ∧
      alGet (init_cfg_section {} c4Section).MEMORY_RANGES n =
        lastVal n c4Section.memory_ranges (alGet ({} : Cfg).MEMORY_RANGES n) ∧
      alGet (init_cfg_section {} c4Section).REGISTERS n =
        lastVal n c4Section.registers (alGet ({} : Cfg).REGISTERS n) ∧
      alGet (init_cfg_section {} c4Section).CONTROLS n =
        lastVal n c4Section.controls (alGet ({} : Cfg).CONTROLS n)) ∧
    alGet (init_cfg_section {} c4Section).REGISTERS "A" = none :=
  ⟨⟨by decide, by decide⟩,
   (c4_section_override {} c4Section (by decide) (by decide) (by decide) (by decide)
     (by decide) (by decide)).1,
   by decide⟩

/-!
Claim C10: invariants of the bus resolver `Chipset.init_cfg_bus`.
-/

/-- One device found by `pci.enumerate_devices()`: the tuple
`(bus, device, function, vendor id, device id)`. -/
structure EnumDev where
  bus : Nat
  dev : Nat
  fnn : Nat
  vid : Nat
  did : Nat
  deriving DecidableEq, Repr

/-- Body of the `for config_device in self.Cfg.CONFIG_PCI` loop of
`init_cfg_bus`: when the descriptor declares both `vid` and `did` (truthy
attributes, modelled as `some`), collect — in discovery order — the bus of
every enumerated device whose (device-number, function-number, vendor) triple
matches and whose device id is among the candidates, and record the list
under the device name only when it is non-empty. -/
def busStep (enum_devices : List EnumDev) (acc : Cfg) (p : String × PciDevice) : Cfg :=
  match p.2.vid, p.2.did with
  | some xml_vid, some did_list =>
    let bus_list := (enum_devices.filter (fun e =>
      decide (e.dev = p.2.dev ∧ e.fnn = p.2.fnn ∧ e.vid = xml_vid ∧
        e.did ∈ did_list))).map (fun e => e.bus)
    if bus_list.length ≠ 0 then { acc with BUS := alSet acc.BUS p.1 bus_list } else acc
  | _, _ => acc

/-- Bus resolver `Chipset.init_cfg_bus`: one enumeration pass, then the
matching loop over every declared device. -/
def init_cfg_bus (cfg : Cfg) (enum_devices : List EnumDev) : Cfg :=
  cfg.CONFIG_PCI.foldl (busStep enum_devices) cfg

/-- The two C10 invariants for one binding: the bus list is non-empty, and it
belongs to a declared device carrying a vendor id and a non-empty candidate
device-id list. -/
def busBound (l0 : List (String × PciDevice)) (n : String) (bl : List Nat) : Prop :=
  bl ≠ [] ∧ ∃ dev, (n, dev) ∈ l0 ∧ dev.vid.isSome ∧ ∃ dl, dev.did = some dl ∧ dl ≠ []

theorem busStep_inv (enum : List EnumDev) (l0 : List (String × PciDevice)) (acc : Cfg)
    (p : String × PciDevice) (hp : p ∈ l0)
    (hacc : ∀ n bl, alGet acc.BUS n = some bl → busBound l0 n bl) :
    ∀ n bl, alGet (busStep enum acc p).BUS n = some bl → busBound l0 n bl := by
  obtain ⟨nm, dv⟩ := p
  intro n bl h
  unfold busStep at h
  cases hv : dv.vid with
  | none =>
    rw [hv] at h
    exact hacc n bl h
  | some xml_vid =>
    cases hd : dv.did with
    | none =>
      rw [hv, hd] at h
      exact hacc n bl h
    | some did_list =>
      rw [hv, hd] at h
      dsimp only at h
      by_cases hlen : ((enum.filter (fun e =>
          decide (e.dev = dv.dev ∧ e.fnn = dv.fnn ∧ e.vid = xml_vid ∧
            e.did ∈ did_list))).map (fun e => e.bus)).length ≠ 0
      · rw [if_pos hlen] at h
        by_cases hn : n = nm
        · subst hn
          rw [alGet_alSet_self] at h
          have hbl : bl = (enum.filter (fun e =>
              decide (e.dev = dv.dev ∧ e.fnn = dv.fnn ∧ e.vid = xml_vid ∧
                e.did ∈ did_list))).map (fun e => e.bus) := by
            injection h with h
            exact h.symm
          subst hbl
          have hfil : enum.filter (fun e =>
              decide (e.dev = dv.dev ∧ e.fnn = dv.fnn ∧ e.vid = xml_vid ∧
                e.did ∈ did_list)) ≠ [] := by
            intro hc
            rw [hc] at hlen
            simp at hlen
          obtain ⟨e, he⟩ := List.exists_mem_of_ne_nil _ hfil
          have hmem := List.mem_filter.mp he
          have hprop := of_decide_eq_true hmem.2
          refine ⟨?_, dv, hp, ?_, did_list, hd, ?_⟩
          · intro hc
            rw [hc] at hlen
            simp at hlen
          · rw [hv]; rfl
          · exact List.ne_nil_of_mem hprop.2.2.2
        · rw [alGet_alSet_ne _ _ _ _ hn] at h
          exact hacc n bl h
      · rw [if_neg hlen] at h
        exact hacc n bl h

theorem busFold_inv (enum : List EnumDev) (l0 : List (String × PciDevice))
    (l : List (String × PciDevice)) (acc : Cfg)
    (hsub : ∀ p, p ∈ l → p ∈ l0)
    (hacc : ∀ n bl, alGet acc.BUS n = some bl → busBound l0 n bl) :
    ∀ n bl, alGet (l.foldl (busStep enum) acc).BUS n = some bl → busBound l0 n bl := by
  induction l generalizing acc with
  | nil => exact hacc
  | cons p rest ih =>
    exact ih (busStep enum acc p)
      (fun q hq => hsub q (List.mem_cons_of_mem p hq))
      (busStep_inv enum l0 acc p (hsub p (List.mem_cons_self p rest)) hacc)

/-- C10: starting from an empty bus-binding map, after `init_cfg_bus` every
name present in `BUS` maps to a non-empty list of discovered bus numbers, and
belongs to a declared device descriptor carrying both a vendor id and a
non-empty candidate device-id list — a descriptor lacking either is never
bound. -/
theorem c10_init_cfg_bus_invariants (cfg : Cfg) (enum_devices : List EnumDev)
    (hb : cfg.BUS = []) :
    ∀ n bl, alGet (init_cfg_bus cfg enum_devices).BUS n = some bl →
      bl ≠ [] ∧ ∃ dev, (n, dev) ∈ cfg.CONFIG_PCI ∧ dev.vid.isSome ∧
        ∃ dl, dev.did = some dl ∧ dl ≠ [] := by
  have base : ∀ n bl, alGet cfg.BUS n = some bl → busBound cfg.CONFIG_PCI n bl := by
    rw [hb]
    intro n bl h
    simp [alGet] at h
  exact busFold_inv enum_devices cfg.CONFIG_PCI cfg.CONFIG_PCI cfg (fun p hp => hp) base

/-- Declared device with vendor 0x8086 and candidates [0x100, 0x101]. -/
def c10Dev : PciDevice :=
  { bus := 0, dev := 31, fnn := 0, vid := some 0x8086, did := some [0x100, 0x101] }

/-- Declared device with no vendor/device ids (never bound). -/
def c10DevBare : PciDevice := { bus := 0, dev := 2, fnn := 0 }

/-- Store declaring both devices, with an empty binding map. -/
def c10Cfg : Cfg := { CONFIG_PCI := [("LPC", c10Dev), ("GFX", c10DevBare)] }

/-- One enumerated device matching `LPC` on bus 0. -/
def c10Enum : List EnumDev :=
  [{ bus := 0, dev := 31, fnn := 0, vid := 0x8086, did := 0x100 }]

/-- Witness for `c10_init_cfg_bus_invariants` at the concrete store. -/
theorem c10_init_cfg_bus_invariants_witness :
    c10Cfg.BUS = [] ∧
    (∀ n bl, alGet (init_cfg_bus c10Cfg c10Enum).BUS n = some bl →
      bl ≠ [] ∧ ∃ dev, (n, dev) ∈ c10Cfg.CONFIG_PCI ∧ dev.vid.isSome ∧
        ∃ dl, dev.did = some dl ∧ dl ≠ []) :=
  ⟨by decide, c10_init_cfg_bus_invariants c10Cfg c10Enum (by decide)⟩

/-!
Claims C8 and C9: platform identification in `Chipset.init`.
-/

/-- ASCII lowercasing of one character (Python `str.lower` on the ASCII
codes the catalogs use). -/
def lowerChar (c : Char) : Char :=
  if 'A' ≤ c ∧ c ≤ 'Z' then Char.ofNat (c.toNat + 32) else c

/-- ASCII lowercasing of a string (`str.lower`). -/
def strLower (s : String) : String := ⟨s.data.map lowerChar⟩

/-- Known hardware vendor (`VID_INTEL`). -/
def VID_INTEL : Nat := 0x8086

/-- One catalog record of `Chipset_Dictionary` / `pch_dictionary`:
name, numeric id, short code, long name. -/
structure CatEntry where
  name : String
  idn : Int
  code : String
  longname : String
  deriving DecidableEq, Repr

/-- Reverse code map (`Chipset_Code` / `pch_codes`): the dict comprehension
`dict([(D[did]['code'], did) for did in D])` — iteration in insertion order,
a later duplicate code overriding an earlier one. -/
def mkCodeDict (d : List (Nat × CatEntry)) : List (String × Nat) :=
  d.foldl (fun acc p => alSet acc p.2.code p.1) []

/-- Result of `detect_platform`: the six live-read identification values
(0xFFFF/0xFF defaults stand in for failed reads). -/
structure DetectedIds where
  vid : Nat
  did : Nat
  rid : Nat
  pch_vid : Nat
  pch_did : Nat
  pch_rid : Nat
  deriving DecidableEq, Repr

/-- Identification state of the `Chipset` object set by `init`. -/
structure PlatState where
  vid : Nat
  did : Nat
  rid : Nat
  code : String
  longname : String
  idn : Int
  pch_vid : Nat
  pch_did : Nat
  pch_rid : Nat
  pch_code : String
  pch_longname : String
  pch_idn : Int
  deriving DecidableEq, Repr

/-- State right after `detect_platform` overwrote the constructor defaults. -/
def detectState (det : DetectedIds) : PlatState :=
  { vid := det.vid, did := det.did, rid := det.rid,
    code := "", longname := "Unrecognized Platform", idn := 0,
    pch_vid := det.pch_vid, pch_did := det.pch_did, pch_rid := det.pch_rid,
    pch_code := "", pch_longname := "Unrecognized PCH", pch_idn := 0 }

/-- Explicit-chipset-code step of `init`: with no code, the platform is
unknown when the detected vendor is not the known hardware vendor; with a
recognized code, vendor is forced to the known vendor, the device id comes
from the code map and the revision is zeroed; an unrecognized code forces the
invalid identity 0xFFFF/0xFFFF/0xFF and marks the platform unknown. -/
def stageChip (chipDict : List (Nat × CatEntry)) (platform_code : Option String)
    (s : PlatState) : PlatState × Bool :=
  match platform_code with
  | none => (s, decide (s.vid ≠ VID_INTEL))
  | some pc =>
    match alGet (mkCodeDict chipDict) pc with
    | some d => ({ s with vid := VID_INTEL, did := d, rid := 0x00 }, false)
    | none => ({ s with vid := 0xFFFF, did := 0xFFFF, rid := 0xFF }, true)

/-- Catalog step of `init`: a device id present in the catalog yields the
lower-cased code, long name and numeric id; otherwise the platform is unknown
with long name `UnknownPlatform`. -/
def stageCatalog (chipDict : List (Nat × CatEntry)) (su : PlatState × Bool) :
    PlatState × Bool :=
  match alGet chipDict su.1.did with
  | some e =>
    ({ su.1 with code := strLower e.code, longname := e.longname, idn := e.idn }, su.2)
  | none => ({ su.1 with longname := "UnknownPlatform" }, true)

/-- Explicit-PCH-code step of `init` (independent of the chipset outcome). -/
def stagePchCode (pchDict : List (Nat × CatEntry)) (req_pch_code : Option String)
    (s : PlatState) : PlatState :=
  match req_pch_code with
  | none => s
  | some rpc =>
    let s1 := { s with pch_vid := VID_INTEL }
    match alGet (mkCodeDict pchDict) rpc with
    | some d => { s1 with pch_did := d, pch_rid := 0x00 }
    | none => { s1 with pch_vid := 0xFFFF, pch_did := 0xFFFF, pch_rid := 0xFF }

/-- PCH catalog step of `init`: a known Intel PCH yields a full identity, any
other outcome the generic `Default PCH` description (not an error). -/
def stagePchCatalog (pchDict : List (Nat × CatEntry)) (s : PlatState) : PlatState :=
  if s.pch_vid = VID_INTEL then
    match alGet pchDict s.pch_did with
    | some e =>
      { s with pch_code := strLower e.code, pch_longname := e.longname, pch_idn := e.idn }
    | none => { s with pch_longname := "Default PCH" }
  else { s with pch_longname := "Default PCH" }

/-- Identification portion of `Chipset.init`: the four steps in source order,
returning the final state and the `_unknown_platform` flag. -/
def init_identity (chipDict pchDict : List (Nat × CatEntry)) (det : DetectedIds)
    (platform_code req_pch_code : Option String) : PlatState × Bool :=
  let su := stageCatalog chipDict (stageChip chipDict platform_code (detectState det))
  (stagePchCatalog pchDict (stagePchCode pchDict req_pch_code su.1), su.2)

/-- `Chipset.init`: after identification (and configuration loading, which
does not affect the raise decision), `UnknownChipsetError` is raised exactly
when the platform stayed unknown and a driver start was requested. -/
def init (chipDict pchDict : List (Nat × CatEntry)) (det : DetectedIds)
    (platform_code req_pch_code : Option String) (start_driver : Bool) :
    Except CsErr PlatState :=
  let su := init_identity chipDict pchDict det platform_code req_pch_code
  if su.2 && start_driver then .error .unknownChipset else .ok su.1

theorem stagePchCode_vdr (pchDict : List (Nat × CatEntry)) (rpc : Option String)
    (s : PlatState) :
    (stagePchCode pchDict rpc s).vid = s.vid ∧ (stagePchCode pchDict rpc s).did = s.did ∧
    (stagePchCode pchDict rpc s).rid = s.rid := by
  unfold stagePchCode
  cases rpc with
  | none => exact ⟨rfl, rfl, rfl⟩
  | some rpc =>
    dsimp only
    cases alGet (mkCodeDict pchDict) rpc <;> exact ⟨rfl, rfl, rfl⟩

theorem stagePchCatalog_vdr (pchDict : List (Nat × CatEntry)) (s : PlatState) :
    (stagePchCatalog pchDict s).vid = s.vid ∧ (stagePchCatalog pchDict s).did = s.did ∧
    (stagePchCatalog pchDict s).rid = s.rid := by
  unfold stagePchCatalog
  by_cases h : s.pch_vid = VID_INTEL
  · rw [if_pos h]
    cases alGet pchDict s.pch_did <;> exact ⟨rfl, rfl, rfl⟩
  · rw [if_neg h]
    exact ⟨rfl, rfl, rfl⟩

theorem stageCatalog_vdr (chipDict : List (Nat × CatEntry)) (su : PlatState × Bool) :
    (stageCatalog chipDict su).1.vid = su.1.vid ∧
    (stageCatalog chipDict su).1.did = su.1.did ∧
    (stageCatalog chipDict su).1.rid = su.1.rid := by
  unfold stageCatalog
  cases alGet chipDict su.1.did <;> exact ⟨rfl, rfl, rfl⟩

theorem stageCatalog_snd_true (chipDict : List (Nat × CatEntry)) (su : PlatState × Bool)
    (h : su.2 = true) : (stageCatalog chipDict su).2 = true := by
  unfold stageCatalog
  cases alGet chipDict su.1.did
  · rfl
  · exact h

theorem init_identity_vdr (chipDict pchDict : List (Nat × CatEntry)) (det : DetectedIds)
    (pcode rpc : Option String) :
    (init_identity chipDict pchDict det pcode rpc).1.vid =
      (stageCatalog chipDict (stageChip chipDict pcode (detectState det))).1.vid ∧
    (init_identity chipDict pchDict det pcode rpc).1.did =
      (stageCatalog chipDict (stageChip chipDict pcode (detectState det))).1.did ∧
    (init_identity chipDict pchDict det pcode rpc).1.rid =
      (stageCatalog chipDict (stageChip chipDict pcode (detectState det))).1.rid := by
  unfold init_identity
  obtain ⟨h1, h2, h3⟩ := stagePchCatalog_vdr pchDict
    (stagePchCode pchDict rpc
      (stageCatalog chipDict (stageChip chipDict pcode (detectState det))).1)
  obtain ⟨g1, g2, g3⟩ := stagePchCode_vdr pchDict rpc
    (stageCatalog chipDict (stageChip chipDict pcode (detectState det))).1
  exact ⟨h1.trans g1, h2.trans g2, h3.trans g3⟩

theorem alGet_isSome_of_mem_keys {κ α : Type} [DecidableEq κ] (m : List (κ × α)) (k : κ)
    (h : k ∈ m.map Prod.fst) : ∃ v, alGet m k = some v := by
  induction m with
  | nil => simp at h
  | cons hd tl ih =>
    obtain ⟨k₀, v₀⟩ := hd
    by_cases h0 : k₀ = k
    · exact ⟨v₀, by simp [alGet, h0]⟩
    · simp only [List.map_cons, List.mem_cons] at h
      rcases h with h | h
      · exact absurd h.symm h0
      · obtain ⟨v, hv⟩ := ih h
        exact ⟨v, by simp [alGet, h0, hv]⟩

/-- Every device id stored in a code map built by `mkCodeDict` is a key of the
underlying catalog. -/
theorem mkCodeDict_lookup_mem (d : List (Nat × CatEntry)) (c : String) (did : Nat)
    (h : alGet (mkCodeDict d) c = some did) : did ∈ d.map Prod.fst := by
  suffices hgen : ∀ (l : List (Nat × CatEntry)) (acc : List (String × Nat)),
      (∀ c' did', alGet acc c' = some did' → did' ∈ d.map Prod.fst) →
      (∀ p, p ∈ l → p ∈ d) →
      ∀ c' did', alGet (l.foldl (fun a p => alSet a p.2.code p.1) acc) c' = some did' →
        did' ∈ d.map Prod.fst by
    exact hgen d [] (fun c' did' hc => by simp [alGet] at hc) (fun p hp => hp) c did h
  intro l
  induction l with
  | nil => intro acc hacc _ c' did' hh; exact hacc c' did' hh
  | cons p rest ih =>
    intro acc hacc hsub c' did' hh
    refine ih (alSet acc p.2.code p.1) ?_
      (fun q hq => hsub q (List.mem_cons_of_mem p hq)) c' did' hh
    intro c'' did'' h''
    by_cases hc : c'' = p.2.code
    · subst hc
      rw [alGet_alSet_self] at h''
      injection h'' with h''
      subst h''
      exact List.mem_map.mpr ⟨p, hsub p (List.mem_cons_self p rest), rfl⟩
    · rw [alGet_alSet_ne _ _ _ _ hc] at h''
      exact hacc c'' did'' h''

/-- Characterization of the `_unknown_platform` flag: it is set exactly when
no explicit code was given and (the detected vendor is not the known vendor or
the detected device id is absent from the catalog), or an explicit code was
given that the code map does not know. -/
theorem init_identity_unknown_iff (chipDict pchDict : List (Nat × CatEntry))
    (det : DetectedIds) (pcode rpc : Option String) :
    (init_identity chipDict pchDict det pcode rpc).2 = true ↔
      ((pcode = none ∧ (det.vid ≠ VID_INTEL ∨ alGet chipDict det.did = none)) ∨
       (∃ pc, pcode = some pc ∧ alGet (mkCodeDict chipDict) pc = none)) := by
  have hsnd : (init_identity chipDict pchDict det pcode rpc).2 =
      (stageCatalog chipDict (stageChip chipDict pcode (detectState det))).2 := rfl
  rw [hsnd]
  cases pcode with
  | none =>
    unfold stageChip stageCatalog detectState
    dsimp only
    cases hl : alGet chipDict det.did with
    | some e => simp [hl]
    | none => simp [hl]
  | some pc =>
    unfold stageChip
    dsimp only
    cases hl : alGet (mkCodeDict chipDict) pc with
    | some d =>
      dsimp only
      have hmem := mkCodeDict_lookup_mem chipDict pc d hl
      obtain ⟨e, he⟩ := alGet_isSome_of_mem_keys chipDict d hmem
      unfold stageCatalog
      dsimp only
      rw [he]
      simp [hl]
    | none =>
      have : (stageCatalog chipDict
          ({ detectState det with vid := 0xFFFF, did := 0xFFFF, rid := 0xFF }, true)).2 =
          true :=
        stageCatalog_snd_true chipDict _ rfl
      rw [this]
      simp [hl]

/-- C8: when `init` is given an explicit chipset code: a code known to the
catalog forces vendor 0x8086, takes the device id from the catalog entry for
that code, and zeroes the revision; an unrecognized code forces the invalid
identity (vendor 0xFFFF, device 0xFFFF, revision 0xFF) and marks the platform
unknown — in both cases regardless of what was read from hardware. -/
theorem c8_explicit_code (chipDict pchDict : List (Nat × CatEntry)) (det : DetectedIds)
    (pc : String) (rpc : Option String) :
    (∀ d, alGet (mkCodeDict chipDict) pc = some d →
       (init_identity chipDict pchDict det (some pc) rpc).1.vid = VID_INTEL ∧
       (init_identity chipDict pchDict det (some pc) rpc).1.did = d ∧
       (init_identity chipDict pchDict det (some pc) rpc).1.rid = 0x00) ∧
    (alGet (mkCodeDict chipDict) pc = none →
       (init_identity chipDict pchDict det (some pc) rpc).1.vid = 0xFFFF ∧
       (init_identity chipDict pchDict det (some pc) rpc).1.did = 0xFFFF ∧
       (init_identity chipDict pchDict det (some pc) rpc).1.rid = 0xFF ∧
       (init_identity chipDict pchDict det (some pc) rpc).2 = true) := by
  obtain ⟨v1, d1, r1⟩ := init_identity_vdr chipDict pchDict det (some pc) rpc
  obtain ⟨v2, d2, r2⟩ :=
    stageCatalog_vdr chipDict (stageChip chipDict (some pc) (detectState det))
  constructor
  · intro d hc
    rw [v1, v2, d1, d2, r1, r2]
    unfold stageChip
    dsimp only
    rw [hc]
    exact ⟨rfl, rfl, rfl⟩
  · intro hc
    refine ⟨?_, ?_, ?_,
      (init_identity_unknown_iff chipDict pchDict det (some pc) rpc).mpr
        (Or.inr ⟨pc, rfl, hc⟩)⟩
    · rw [v1, v2]
      unfold stageChip
      dsimp only
      rw [hc]
    · rw [d1, d2]
      unfold stageChip
      dsimp only
      rw [hc]
    · rw [r1, r2]
      unfold stageChip
      dsimp only
      rw [hc]

/-- C9: `init` raises `UnknownChipsetError` if and only if a driver start was
requested AND the platform stayed unmatched (no explicit code and the detected
vendor is not the known hardware vendor or the detected device id is absent
from the catalog; or an explicit but unrecognized code).  With no hardware
transport demanded, the same condition never raises. -/
theorem c9_unknown_platform_raise (chipDict pchDict : List (Nat × CatEntry))
    (det : DetectedIds) (pcode rpc : Option String) (sd : Bool) :
    init chipDict pchDict det pcode rpc sd = .error .unknownChipset ↔
      (sd = true ∧
        ((pcode = none ∧ (det.vid ≠ VID_INTEL ∨ alGet chipDict det.did = none)) ∨
         (∃ pc, pcode = some pc ∧ alGet (mkCodeDict chipDict) pc = none))) := by
  unfold init
  by_cases hu : ((init_identity chipDict pchDict det pcode rpc).2 && sd) = true
  · rw [if_pos hu]
    rw [Bool.and_eq_true] at hu
    constructor
    · intro _
      exact ⟨hu.2, (init_identity_unknown_iff chipDict pchDict det pcode rpc).mp hu.1⟩
    · intro _
      rfl
  · rw [if_neg hu]
    constructor
    · intro h
      exact Except.noConfusion h
    · rintro ⟨hsd, hcond⟩
      exact absurd (Bool.and_eq_true .. |>.mpr
        ⟨(init_identity_unknown_iff chipDict pchDict det pcode rpc).mpr hcond, hsd⟩) hu

/-- Sample Sandy Bridge catalog record. -/
def wSnb : CatEntry :=
  { name := "Sandy Bridge", idn := 1, code := "SNB",
    longname := "Desktop 2nd Generation Core Processor" }

/-- Sample chipset catalog with a single Sandy Bridge entry. -/
def wChipDict : List (Nat × CatEntry) := [(0x0100, wSnb)]

/-- Sample 100-series PCH catalog record. -/
def wPch1xx : CatEntry :=
  { name := "H110", idn := 10001, code := "PCH_1XX",
    longname := "Intel H110 (100 series) PCH" }

/-- Sample PCH catalog with a single 100-series entry. -/
def wPchDict : List (Nat × CatEntry) := [(0xA143, wPch1xx)]

/-- Sample detection result from a non-Intel, unknown platform. -/
def wDet : DetectedIds :=
  { vid := 0x1234, did := 0x9999, rid := 7, pch_vid := 0, pch_did := 0, pch_rid := 0 }

/-- Witness for `c8_explicit_code`: the known code `SNB` and the unknown code
`XXX` against the sample catalog. -/
theorem c8_explicit_code_witness :
    (alGet (mkCodeDict wChipDict) "SNB" = some 0x0100 ∧
     (init_identity wChipDict wPchDict wDet (some "SNB") none).1.vid = VID_INTEL ∧
     (init_identity wChipDict wPchDict wDet (some "SNB") none).1.did = 0x0100 ∧
     (init_identity wChipDict wPchDict wDet (some "SNB") none).1.rid = 0x00) ∧
    (alGet (mkCodeDict wChipDict) "XXX" = none ∧
     (init_identity wChipDict wPchDict wDet (some "XXX") none).1.vid = 0xFFFF ∧
     (init_identity wChipDict wPchDict wDet (some "XXX") none).1.did = 0xFFFF ∧
     (init_identity wChipDict wPchDict wDet (some "XXX") none).1.rid = 0xFF ∧
     (init_identity wChipDict wPchDict wDet (some "XXX") none).2 = true) :=
  ⟨⟨by decide,
    (c8_explicit_code wChipDict wPchDict wDet "SNB" none).1 0x0100 (by decide)⟩,
   ⟨by decide,
    (c8_explicit_code wChipDict wPchDict wDet "XXX" none).2 (by decide)⟩⟩

/-- Witness for `c9_unknown_platform_raise`: the sample unmatched platform
raises exactly when the driver is requested. -/
theorem c9_unknown_platform_raise_witness :
    init wChipDict wPchDict wDet none none true = .error .unknownChipset ∧
    init wChipDict wPchDict wDet none none false ≠ .error .unknownChipset :=
  ⟨(c9_unknown_platform_raise wChipDict wPchDict wDet none none true).mpr
     ⟨rfl, Or.inl ⟨rfl, Or.inl (by decide)⟩⟩,
   fun h => Bool.false_ne_true
     ((c9_unknown_platform_raise wChipDict wPchDict wDet none none false).mp h).1⟩

/-!
Claim C3: ordering of configuration sources in
`Chipset.init_xml_configuration`.  Files are full paths (the walked list is
sorted by path before matching); name matching is on the basename.
-/

/-- Basename of a path: the segment after the last `/`
(`os.path.basename`). -/
def basenameAux (cs acc : List Char) : List Char :=
  match cs with
  | [] => acc
  | c :: rest => if c = '/' then basenameAux rest [] else basenameAux rest (acc ++ [c])

/-- Basename of a path string. -/
def basename (p : String) : String := ⟨basenameAux p.data []⟩

/-- POSIX `fnmatch.fnmatch(base, pre ++ "*.xml")`: the basename starts with
the prefix and what follows it ends in `.xml`. -/
def matchXmlPre (pre base : String) : Bool :=
  pre.data.isPrefixOf base.data && (".xml".data).isSuffixOf (base.data.drop pre.data.length)

/-- Python `basename.startswith('pch_')`. -/
def pchPrefixed (base : String) : Bool := "pch_".data.isPrefixOf base.data

/-- Python `x in l` on a list of path strings. -/
def listContains (l : List String) (x : String) : Bool :=
  match l with
  | [] => false
  | y :: rest => if y = x then true else listContains rest x

theorem listContains_iff (l : List String) (x : String) :
    listContains l x = true ↔ x ∈ l := by
  induction l with
  | nil => simp [listContains]
  | cons y rest ih =>
    simp only [listContains, List.mem_cons]
    by_cases h : y = x
    · simp [h]
    · have hx : ¬ x = y := fun hh => h (Eq.symm hh)
      simp [h, ih, hx]

/-- File-selection order of `init_xml_configuration`, translated statement by
statement: the `common*.xml` pass over the sorted file list, the
`<code>*.xml` pass (skipped when the chipset code is falsy/unknown), the
`<pch_code>*.xml` pass (skipped when the PCH code is falsy/unknown), the
`platform_files` accumulation loop over all known chipset codes, and the
final catch-all pass keeping files neither loaded nor platform-specific. -/
def init_xml_configuration_files (cfgFiles : List String) (code pch_code : String)
    (chipset_codes : List String) : List String :=
  let loaded1 := cfgFiles.filter (fun x => matchXmlPre "common" (basename x))
  let loaded2 := loaded1 ++
    (if code ≠ "" then cfgFiles.filter (fun x => matchXmlPre code (basename x)) else [])
  let loaded3 := loaded2 ++
    (if pch_code ≠ "" then
      cfgFiles.filter (fun x => matchXmlPre pch_code (basename x)) else [])
  let platform_files := chipset_codes.foldl (fun acc plat =>
    acc ++ cfgFiles.filter (fun x =>
      matchXmlPre (strLower plat) (basename x) || pchPrefixed (basename x))) []
  loaded3 ++ cfgFiles.filter (fun x =>
    !(listContains loaded3 x) && !(listContains platform_files x))

/-- Load order as the claim words it, phase by phase: (1) common-prefixed
files, (2) chipset-code-prefixed files unless the code is empty/unknown,
(3) PCH-code-prefixed files unless the PCH code is empty/unknown, (4) the
remaining files not already loaded and not matching any known chipset code
prefix nor the PCH code prefix `pch_`, each phase in the (sorted) file-list
order. -/
def loadOrderSpec (cfgFiles : List String) (code pch_code : String)
    (chipset_codes : List String) : List String :=
  let phase1 := cfgFiles.filter (fun x => matchXmlPre "common" (basename x))
  let phase2 :=
    if code ≠ "" then cfgFiles.filter (fun x => matchXmlPre code (basename x)) else []
  let phase3 :=
    if pch_code ≠ "" then
      cfgFiles.filter (fun x => matchXmlPre pch_code (basename x)) else []
  let loaded := phase1 ++ (phase2 ++ phase3)
  let otherPlatform := fun x =>
    chipset_codes.any (fun c => matchXmlPre (strLower c) (basename x)) ||
      pchPrefixed (basename x)
  loaded ++ cfgFiles.filter (fun x => !(listContains loaded x) && !(otherPlatform x))

theorem mem_foldl_append {β : Type} (g : β → List String) (l : List β)
    (start : List String) (x : String) :
    x ∈ l.foldl (fun acc b => acc ++ g b) start ↔ x ∈ start ∨ ∃ b ∈ l, x ∈ g b := by
  induction l generalizing start with
  | nil => simp
  | cons b rest ih =>
    simp only [List.foldl_cons, ih (start ++ g b), List.mem_append, List.mem_cons]
    constructor
    · rintro ((h | h) | ⟨c, hc, hx⟩)
      · exact Or.inl h
      · exact Or.inr ⟨b, Or.inl rfl, h⟩
      · exact Or.inr ⟨c, Or.inr hc, hx⟩
    · rintro (h | ⟨c, (rfl | hc), hx⟩)
      · exact Or.inl (Or.inl h)
      · exact Or.inl (Or.inr hx)
      · exact Or.inr ⟨c, hc, hx⟩

/-- C3: as long as the known-chipset-code list is non-empty (it is the key
set of the static catalog), the file selection of `init_xml_configuration`
is exactly the claim's four phases in order: common files, chipset-code files
(skipped for an unknown code), PCH-code files (skipped for an unknown PCH),
then every remaining file that is neither already loaded nor prefixed by any
known chipset code nor PCH-prefixed, preserving the sorted file order; a
later file overrides an earlier definition of the same name because the
files are applied to the store in this order. -/
theorem c3_load_order (cfgFiles : List String) (code pch_code : String)
    (chipset_codes : List String) (hne : chipset_codes ≠ []) :
    init_xml_configuration_files cfgFiles code pch_code chipset_codes =
      loadOrderSpec cfgFiles code pch_code chipset_codes := by
  unfold init_xml_configuration_files loadOrderSpec
  simp only [List.append_assoc]
  congr 1
  congr 1
  congr 1
  apply List.filter_congr
  intro x hx
  congr 1
  have hmem : (listContains (chipset_codes.foldl (fun acc plat =>
      acc ++ cfgFiles.filter (fun y =>
        matchXmlPre (strLower plat) (basename y) || pchPrefixed (basename y))) []) x = true) ↔
      ((chipset_codes.any (fun c => matchXmlPre (strLower c) (basename x)) ||
        pchPrefixed (basename x)) = true) := by
    rw [listContains_iff, mem_foldl_append]
    simp only [List.not_mem_nil, false_or, List.mem_filter, Bool.or_eq_true,
      List.any_eq_true]
    constructor
    · rintro ⟨c, hc, _, h | h⟩
      · exact Or.inl ⟨c, hc, h⟩
      · exact Or.inr h
    · rintro (⟨c, hc, h⟩ | h)
      · exact ⟨c, hc, hx, Or.inl h⟩
      · obtain ⟨c0, hc0⟩ := List.exists_mem_of_ne_nil chipset_codes hne
        exact ⟨c0, hc0, hx, Or.inr h⟩
  congr 1
  exact Bool.eq_iff_iff.mpr hmem

/-- Sample sorted configuration file list. -/
def c3Files : List String :=
  ["cfg/common.xml", "cfg/other.xml", "cfg/pch_1xx.xml", "cfg/pch_9xx.xml",
   "cfg/qrk.xml", "cfg/snb.xml", "cfg/snb_extra.xml"]

/-- Witness for `c3_load_order` on the sample tree: chipset `snb`, PCH
`pch_1xx`, known codes SNB and QRK; the resulting order is common, the two
snb files, the pch_1xx file, then only the non-platform leftover. -/
theorem c3_load_order_witness :
    (["SNB", "QRK"] : List String) ≠ [] ∧
    init_xml_configuration_files c3Files "snb" "pch_1xx" ["SNB", "QRK"] =
      loadOrderSpec c3Files "snb" "pch_1xx" ["SNB", "QRK"] ∧
    init_xml_configuration_files c3Files "snb" "pch_1xx" ["SNB", "QRK"] =
      ["cfg/common.xml", "cfg/snb.xml", "cfg/snb_extra.xml", "cfg/pch_1xx.xml",
       "cfg/other.xml"] :=
  ⟨by decide, c3_load_order c3Files "snb" "pch_1xx" ["SNB", "QRK"] (by decide),
   by decide⟩
